import Mathlib

/-!
Verification development for the BiteSpeed identity-reconciliation backend.

The model below is a shallow embedding of the reconciliation core:

* `Contact`, `IdentifyRequest`, `ConsolidatedContact` mirror the entity and
  payload shapes of `contact.types` (ids and timestamps become `Nat`);
* `Store` models the DynamoDB-backed `ContactModel`: the table is the list of
  items in the order the Scan operations return them.  DynamoDB makes no
  promise that this scan order is related to creation order (items come back
  in key-hash order of their uuid keys); `create` appends merely as one
  possible arrangement, and any permutation of the table is an equally valid
  store state, which is why the consolidation-order analysis (claim C4) must
  not assume a creation-ordered table.  `nextId` models fresh id generation,
  `now` models the wall clock used for ISO timestamps, and `sched` is a
  failure schedule
  consumed one flag per store operation (an empty schedule means every
  operation succeeds, matching an always-available store).  The `failures`,
  `reads` and `writes` counters instrument the store so that theorems can
  speak about "no store access" and "no store write";
* the `Store.*` operations mirror `ContactModel.create`, `getById`, `update`,
  `findByEmailOrPhone` and `getLinkedContacts`;
* `identifyContact` and its helpers mirror `ContactService` line by line,
  including the JavaScript truthiness tests on optional string fields and the
  places where a store failure is checked or silently dropped.

A thrown JavaScript exception that is caught by the top-level catch of
`identifyContact` is modelled by the branches that return the catch-all
failure result.
-/

namespace BiteSpeed

/-- Link precedence of a contact record, mirroring the string enum of
`contact.types`. -/
inductive LinkPrecedence where
  | primary
  | secondary
deriving DecidableEq, Repr

instance : BEq LinkPrecedence where
  beq a b := decide (a = b)

instance : LawfulBEq LinkPrecedence where
  eq_of_beq h := by simpa [BEq.beq] using h
  rfl := by intro a; simp [BEq.beq]

/-- A contact record as stored in the table.  Ids and timestamps are modelled
as natural numbers; `createdAt` comparisons in the service compare ISO date
strings through `new Date`, which is order-isomorphic to the numeric clock
used here. -/
structure Contact where
  id : Nat
  email : Option String := none
  phoneNumber : Option String := none
  linkedId : Option Nat := none
  linkPrecedence : LinkPrecedence
  createdAt : Nat
  updatedAt : Nat
deriving DecidableEq, Repr

/-- Payload of the identify operation. `none` models an absent JSON field and
`some ""` models a field explicitly set to the empty string. -/
structure IdentifyRequest where
  email : Option String := none
  phoneNumber : Option String := none
deriving DecidableEq, Repr

/-- Consolidated response shape of the identify operation. -/
structure ConsolidatedContact where
  primaryContactId : Nat
  emails : List String
  phoneNumbers : List String
  secondaryContactIds : List Nat
deriving DecidableEq, Repr

/-- Result shape mirroring `DbOperationResult<ConsolidatedContact>`. -/
structure IdentifyResult where
  success : Bool
  data : Option ConsolidatedContact := none
  error : Option String := none
deriving DecidableEq, Repr

/-- JavaScript truthiness of an optional string field: absent fields and the
empty string are falsy, every other string is truthy. -/
def truthy : Option String → Bool
  | none => false
  | some s => !(s == "")

/-- The persistence layer state.  `table` is the DynamoDB table in the order
scans return its items — an order DynamoDB leaves unspecified, so any
arrangement of the same records is an equally valid state.  `sched` is the
failure schedule (one flag consumed per operation; an exhausted schedule
means success), and the three counters instrument the store for the frame
theorems. -/
structure Store where
  table : List Contact
  nextId : Nat
  now : Nat
  sched : List Bool
  failures : Nat
  reads : Nat
  writes : Nat
deriving DecidableEq, Repr

/-- The empty store with a fully reliable schedule. -/
def emptyStore : Store :=
  { table := [], nextId := 0, now := 0, sched := [], failures := 0, reads := 0, writes := 0 }

/-- Consume one flag of the failure schedule: report whether the pending
operation fails and count the failure. -/
def Store.opFail (s : Store) : Bool × Store :=
  match s.sched with
  | [] => (false, s)
  | b :: rest =>
      (b, { s with sched := rest, failures := s.failures + (if b then 1 else 0) })

/-- Point read of the record with the given id, mirroring
`ContactModel.getById` (a missing item and a store error both yield a failed
result). -/
def Store.getById (s : Store) (id : Nat) : Option Contact × Store :=
  let (f, s) := s.opFail
  let s := { s with reads := s.reads + 1 }
  if f then (none, s)
  else (s.table.find? (fun c => c.id == id), s)

/-- Create a new record, mirroring `ContactModel.create`: a fresh id, both
timestamps set to the current clock, and only the provided optional fields
stored. -/
def Store.create (s : Store) (email phoneNumber : Option String) (linkedId : Option Nat)
    (lp : LinkPrecedence) : Option Contact × Store :=
  let (f, s) := s.opFail
  let s := { s with writes := s.writes + 1 }
  if f then (none, s)
  else
    let c : Contact :=
      { id := s.nextId, email := email, phoneNumber := phoneNumber, linkedId := linkedId,
        linkPrecedence := lp, createdAt := s.now, updatedAt := s.now }
    (some c, { s with table := s.table ++ [c], nextId := s.nextId + 1, now := s.now + 1 })

/-- Field update applied to one record. -/
def applyUpdate (id : Nat) (linkedId : Option Nat) (lp : Option LinkPrecedence) (t : Nat)
    (c : Contact) : Contact :=
  if c.id == id then
    { c with
      linkedId := match linkedId with | some v => some v | none => c.linkedId,
      linkPrecedence := match lp with | some v => v | none => c.linkPrecedence,
      updatedAt := t }
  else c

/-- Conditional field update, mirroring `ContactModel.update`: only the
provided fields are written and `updatedAt` is refreshed to the current
clock.  The boolean is the success flag of the operation, the only part of
the result the service inspects.  DynamoDB `UpdateCommand` succeeds even on
an absent key (upsert); the service only ever updates ids it has just read
from the table, so the upsert corner is unreachable and the update is
modelled as an in-place rewrite. -/
def Store.update (s : Store) (id : Nat) (linkedId : Option Nat) (lp : Option LinkPrecedence) :
    Bool × Store :=
  let (f, s) := s.opFail
  let s := { s with writes := s.writes + 1 }
  if f then (false, s)
  else
    (true, { s with table := s.table.map (applyUpdate id linkedId lp s.now), now := s.now + 1 })

/-- Scan predicate of `ContactModel.findByEmailOrPhone`: a disjunction of the
equality conditions for whichever query fields are provided. -/
def matchPred (qe qp : Option String) (c : Contact) : Bool :=
  (match qe with | some e => c.email == some e | none => false) ||
  (match qp with | some p => c.phoneNumber == some p | none => false)

/-- Scan for records matching the given email or phone, mirroring
`ContactModel.findByEmailOrPhone`.  When no condition is provided the model
returns an empty result without touching the store, exactly like the guarded
`ScanCommand` in the source. -/
def Store.findByEmailOrPhone (s : Store) (qe qp : Option String) :
    Option (List Contact) × Store :=
  if qe.isNone && qp.isNone then (some [], s)
  else
    let (f, s) := s.opFail
    let s := { s with reads := s.reads + 1 }
    if f then (none, s)
    else (some (s.table.filter (matchPred qe qp)), s)

/-- Load a primary record together with every record whose `linkedId` points
at it, mirroring `ContactModel.getLinkedContacts` (a point read followed by a
scan).  The scan returns the matching records in the order they sit in
`table`, which is the scan order of the store: it carries no guarantee of
matching creation order, since DynamoDB Scan returns items in unspecified
key-hash order. -/
def Store.getLinkedContacts (s : Store) (primaryContactId : Nat) :
    Option (List Contact) × Store :=
  match s.getById primaryContactId with
  | (none, s) => (none, s)
  | (some p, s) =>
      let (f, s) := s.opFail
      let s := { s with reads := s.reads + 1 }
      if f then (none, s)
      else (some (p :: s.table.filter (fun c => c.linkedId == some primaryContactId)), s)

/-- The query parameters built by `identifyContact` before the matching scan:
a field is passed through only when it is truthy (lines 102 to 104 of the
service). -/
def queryParamsOf (r : IdentifyRequest) : Option String × Option String :=
  (if truthy r.email then r.email else none,
   if truthy r.phoneNumber then r.phoneNumber else none)

/-- Helper record of `groupContactsByPrimary`, mirroring `ContactGroup`. -/
structure ContactGroup where
  primaryId : Nat
  createdAt : Nat
  contacts : List Contact
deriving DecidableEq, Repr

/-- Chain root of a record: itself when primary, its `linkedId` otherwise.
A secondary with no `linkedId` makes the source dereference `undefined`, so
the root is undefined in that case. -/
def rootIdOf (c : Contact) : Option Nat :=
  match c.linkPrecedence with
  | .primary => some c.id
  | .secondary => c.linkedId

/-- Whether a group keyed by the given root id already exists, mirroring
`groups.has(primaryId)`. -/
def hasGroup (gs : List ContactGroup) (rootId : Nat) : Bool :=
  gs.any (fun g => g.primaryId == rootId)

/-- Push a contact into the group keyed by the given root id, mirroring
`groups.get(primaryId)!.contacts.push(contact)` on the insertion-ordered
map. -/
def pushMember (gs : List ContactGroup) (rootId : Nat) (c : Contact) : List ContactGroup :=
  match gs with
  | [] => []
  | g :: t =>
      if g.primaryId == rootId then { g with contacts := g.contacts ++ [c] } :: t
      else g :: pushMember t rootId c

/-- Worker loop of `groupContactsByPrimary`.  A `none` outcome models the
thrown exception that the top-level catch of `identifyContact` turns into
the catch-all failure: a secondary without `linkedId`, or a root fetch that
fails (the source dereferences the missing data with a non-null
assertion). -/
def groupGo : List Contact → List ContactGroup → Store → Option (List ContactGroup) × Store
  | [], gs, s => (some gs, s)
  | c :: rest, gs, s =>
      match rootIdOf c with
      | none => (none, s)
      | some rootId =>
          if hasGroup gs rootId then groupGo rest (pushMember gs rootId c) s
          else
            match c.linkPrecedence with
            | .primary => groupGo rest (gs ++ [⟨rootId, c.createdAt, [c]⟩]) s
            | .secondary =>
                match s.getById rootId with
                | (none, s) => (none, s)
                | (some pc, s) => groupGo rest (gs ++ [⟨rootId, pc.createdAt, [c]⟩]) s

/-- Group the matched records by their chain root, mirroring
`ContactService.groupContactsByPrimary`.  The root record is fetched from the
store only when the first member seen for a chain is a secondary. -/
def groupContactsByPrimary (contacts : List Contact) (s : Store) :
    Option (List ContactGroup) × Store :=
  groupGo contacts [] s

/-- Decision of `ContactService.shouldCreateSecondaryContact`: no creation on
an exact raw-equality match, otherwise creation exactly when the request
carries a truthy email or phone that no matched record already has. -/
def shouldCreateSecondaryContact (r : IdentifyRequest) (existingContacts : List Contact) :
    Bool :=
  let exactMatch := existingContacts.any
    (fun c => c.email == r.email && c.phoneNumber == r.phoneNumber)
  if exactMatch then false
  else
    let hasNewEmail := truthy r.email &&
      !(existingContacts.any (fun c => c.email == r.email))
    let hasNewPhone := truthy r.phoneNumber &&
      !(existingContacts.any (fun c => c.phoneNumber == r.phoneNumber))
    hasNewEmail || hasNewPhone

/-- Mirror of `ContactService.createSecondaryContact`: only truthy request
fields are stored, and the outcome of the store write is discarded (the
source returns void and merely logs on success). -/
def createSecondaryContact (r : IdentifyRequest) (primaryContactId : Nat) (s : Store) :
    Store :=
  let email := if truthy r.email then r.email else none
  let phone := if truthy r.phoneNumber then r.phoneNumber else none
  (s.create email phone (some primaryContactId) .secondary).2

/-- Mirror of `ContactService.createNewPrimaryContact`. -/
def createNewPrimaryContact (r : IdentifyRequest) (s : Store) : IdentifyResult × Store :=
  let email := if truthy r.email then r.email else none
  let phone := if truthy r.phoneNumber then r.phoneNumber else none
  match s.create email phone none .primary with
  | (none, s) =>
      ({ success := false, error := some "Failed to create new primary contact" }, s)
  | (some c, s) =>
      ({ success := true,
         data := some
           { primaryContactId := c.id,
             emails := if truthy c.email then c.email.toList else [],
             phoneNumbers := if truthy c.phoneNumber then c.phoneNumber.toList else [],
             secondaryContactIds := [] } }, s)

/-- One step of the email collection loop of `buildConsolidatedResponse`:
append a truthy email not already collected. -/
def collectEmail (acc : List String) (c : Contact) : List String :=
  match c.email with
  | some e => if !(e == "") && !(acc.contains e) then acc ++ [e] else acc
  | none => acc

/-- One step of the phone collection loop of `buildConsolidatedResponse`. -/
def collectPhone (acc : List String) (c : Contact) : List String :=
  match c.phoneNumber with
  | some p => if !(p == "") && !(acc.contains p) then acc ++ [p] else acc
  | none => acc

/-- Mirror of `ContactService.buildConsolidatedResponse`.  The branch where no
primary is found models the thrown non-null assertion, which the top-level
catch turns into the catch-all failure result. -/
def buildConsolidatedResponse (primaryContactId : Nat) (s : Store) :
    IdentifyResult × Store :=
  match s.getLinkedContacts primaryContactId with
  | (none, s) =>
      ({ success := false, error := some "Failed to retrieve linked contacts" }, s)
  | (some allContacts, s) =>
      match allContacts.find? (fun c => c.linkPrecedence == LinkPrecedence.primary) with
      | none =>
          ({ success := false,
             error := some "Internal server error during contact identification" }, s)
      | some primaryContact =>
          let secondaryContacts :=
            allContacts.filter (fun c => c.linkPrecedence == LinkPrecedence.secondary)
          let emails0 := if truthy primaryContact.email then primaryContact.email.toList else []
          let phones0 :=
            if truthy primaryContact.phoneNumber then primaryContact.phoneNumber.toList else []
          let emails := secondaryContacts.foldl collectEmail emails0
          let phoneNumbers := secondaryContacts.foldl collectPhone phones0
          ({ success := true,
             data := some
               { primaryContactId := primaryContact.id,
                 emails := emails,
                 phoneNumbers := phoneNumbers,
                 secondaryContactIds := secondaryContacts.map (fun c => c.id) } }, s)

/-- One step of the re-point loop of `linkTwoPrimaryContacts`: a member that
was already secondary is re-pointed at the older root, and the result of the
store update is discarded exactly as in the source. -/
def repointStep (olderId : Nat) (s : Store) (c : Contact) : Store :=
  if c.linkPrecedence == LinkPrecedence.secondary then
    (s.update c.id (some olderId) (some .secondary)).2
  else s

/-- Mirror of `ContactService.linkTwoPrimaryContacts`: demote the newer root,
re-point the matched secondaries of the newer chain, optionally create a
secondary for new request information, then consolidate on the older root. -/
def linkTwoPrimaryContacts (contactGroups : List ContactGroup) (r : IdentifyRequest)
    (s : Store) : IdentifyResult × Store :=
  match contactGroups with
  | [g1, g2] =>
      let isGroup1Older := g1.createdAt < g2.createdAt
      let olderGroup := if isGroup1Older then g1 else g2
      let newerGroup := if isGroup1Older then g2 else g1
      match s.update newerGroup.primaryId (some olderGroup.primaryId) (some .secondary) with
      | (false, s) =>
          ({ success := false, error := some "Failed to link primary contacts" }, s)
      | (true, s) =>
          let s := newerGroup.contacts.foldl (repointStep olderGroup.primaryId) s
          let allContacts := olderGroup.contacts ++ newerGroup.contacts
          let s :=
            if shouldCreateSecondaryContact r allContacts then
              createSecondaryContact r olderGroup.primaryId s
            else s
          buildConsolidatedResponse olderGroup.primaryId s
  | _ => ({ success := false, error := some "Expected exactly 2 contact groups for linking" }, s)

/-- Mirror of `ContactService.identifyContact`, the public reconciliation
operation.  The branches returning the catch-all message model thrown
exceptions reaching the top-level catch (an empty group list makes the source
dereference `undefined`). -/
def identifyContact (r : IdentifyRequest) (s : Store) : IdentifyResult × Store :=
  if !(truthy r.email) && !(truthy r.phoneNumber) then
    ({ success := false,
       error := some "At least one of email or phoneNumber must be provided" }, s)
  else
    let qp := queryParamsOf r
    match s.findByEmailOrPhone qp.1 qp.2 with
    | (none, s) =>
        ({ success := false, error := some "Failed to search for existing contacts" }, s)
    | (some existingContacts, s) =>
        if existingContacts.isEmpty then createNewPrimaryContact r s
        else
          match groupContactsByPrimary existingContacts s with
          | (none, s) =>
              ({ success := false,
                 error := some "Internal server error during contact identification" }, s)
          | (some contactGroups, s) =>
              if contactGroups.length == 1 then
                match contactGroups with
                | g :: _ =>
                    let s :=
                      if shouldCreateSecondaryContact r g.contacts then
                        createSecondaryContact r g.primaryId s
                      else s
                    buildConsolidatedResponse g.primaryId s
                | [] =>
                    ({ success := false,
                       error := some "Internal server error during contact identification" }, s)
              else if contactGroups.length == 2 then
                linkTwoPrimaryContacts contactGroups r s
              else
                match contactGroups with
                | [] =>
                    ({ success := false,
                       error := some "Internal server error during contact identification" }, s)
                | g :: rest =>
                    let oldestGroup :=
                      rest.foldl (fun o c => if o.createdAt < c.createdAt then o else c) g
                    buildConsolidatedResponse oldestGroup.primaryId s

/-- Run a sequence of identify calls, keeping only the evolving store. -/
def runSeq (rs : List IdentifyRequest) (s : Store) : Store :=
  rs.foldl (fun s r => (identifyContact r s).2) s

/-- Point lookup in the table, used by the theorems to inspect final states. -/
def lookup (s : Store) (id : Nat) : Option Contact :=
  s.table.find? (fun c => c.id == id)

/-- Chain integrity: every secondary carries a `linkedId` that resolves to an
existing record whose precedence is primary. -/
def chainIntegrity (s : Store) : Bool :=
  s.table.all (fun c =>
    match c.linkPrecedence with
    | .primary => true
    | .secondary =>
        match c.linkedId with
        | none => false
        | some l => s.table.any (fun p => p.id == l && p.linkPrecedence == LinkPrecedence.primary))

/-! ### Basic lemmas about the store operations -/

theorem applyUpdate_id (id : Nat) (li : Option Nat) (lp : Option LinkPrecedence) (t : Nat)
    (c : Contact) : (applyUpdate id li lp t c).id = c.id := by
  unfold applyUpdate
  split <;> rfl

theorem find?_id_map_applyUpdate (tbl : List Contact) (id : Nat) (li : Option Nat)
    (lp : Option LinkPrecedence) (t y : Nat) :
    (tbl.map (applyUpdate id li lp t)).find? (fun c => c.id == y)
      = (tbl.find? (fun c => c.id == y)).map (applyUpdate id li lp t) := by
  rw [List.find?_map]
  have hp : ((fun c : Contact => c.id == y) ∘ applyUpdate id li lp t)
      = (fun c : Contact => c.id == y) := by
    funext c
    simp [Function.comp, applyUpdate_id]
  rw [hp]

theorem lookup_id {s : Store} {x : Nat} {e : Contact} (h : lookup s x = some e) : e.id = x := by
  have h' : s.table.find? (fun c => c.id == x) = some e := h
  have := List.find?_some h'
  simpa using this

theorem update_sched_nil (s : Store) (id : Nat) (li : Option Nat) (lp : Option LinkPrecedence)
    (h : s.sched = []) :
    s.update id li lp
      = (true, { s with writes := s.writes + 1,
                        table := s.table.map (applyUpdate id li lp s.now),
                        now := s.now + 1 }) := by
  simp [Store.update, Store.opFail, h]

/-- Records already demoted under the given root: the record stored at id `x`
is a secondary pointing at `olderId`. -/
def Demoted (s : Store) (x olderId : Nat) : Prop :=
  ∃ e, lookup s x = some e ∧ e.linkedId = some olderId ∧
    e.linkPrecedence = LinkPrecedence.secondary

theorem lookup_repointStep (olderId : Nat) (s : Store) (c : Contact) (h : s.sched = [])
    (x : Nat) :
    lookup (repointStep olderId s c) x
      = if c.linkPrecedence == LinkPrecedence.secondary then
          (lookup s x).map (applyUpdate c.id (some olderId) (some .secondary) s.now)
        else lookup s x := by
  by_cases hc : c.linkPrecedence == LinkPrecedence.secondary
  · simp only [repointStep, hc, if_pos]
    rw [update_sched_nil _ _ _ _ h]
    unfold lookup
    exact find?_id_map_applyUpdate _ _ _ _ _ _
  · simp [repointStep, hc]

theorem repointStep_sched_nil {olderId : Nat} {s : Store} {c : Contact} (h : s.sched = []) :
    (repointStep olderId s c).sched = [] := by
  unfold repointStep
  split
  · rw [update_sched_nil _ _ _ _ h]
    exact h
  · exact h

theorem Demoted_repointStep {s : Store} {x olderId : Nat} (h : s.sched = [])
    (hd : Demoted s x olderId) (c : Contact) : Demoted (repointStep olderId s c) x olderId := by
  obtain ⟨e, he, hl, hp⟩ := hd
  rw [Demoted, lookup_repointStep olderId s c h]
  by_cases hc : c.linkPrecedence == LinkPrecedence.secondary
  · refine ⟨applyUpdate c.id (some olderId) (some .secondary) s.now e, ?_, ?_, ?_⟩
    · simp [hc, he]
    · unfold applyUpdate; split <;> simp [hl]
    · unfold applyUpdate; split <;> simp [hp]
  · exact ⟨e, by simp [hc, he], hl, hp⟩

theorem Demoted_repointStep_self {s : Store} {olderId : Nat} {c : Contact} (h : s.sched = [])
    (hex : (lookup s c.id).isSome) (hsec : c.linkPrecedence = LinkPrecedence.secondary) :
    Demoted (repointStep olderId s c) c.id olderId := by
  obtain ⟨e, he⟩ := Option.isSome_iff_exists.mp hex
  have hid : e.id = c.id := lookup_id he
  rw [Demoted, lookup_repointStep olderId s c h]
  refine ⟨applyUpdate c.id (some olderId) (some .secondary) s.now e, ?_, ?_, ?_⟩
  · simp [hsec, he]
  · unfold applyUpdate; simp [hid]
  · unfold applyUpdate; simp [hid]

theorem lookup_isSome_repointStep {s : Store} {olderId : Nat} {c : Contact} (h : s.sched = [])
    (x : Nat) (hex : (lookup s x).isSome) : (lookup (repointStep olderId s c) x).isSome := by
  rw [lookup_repointStep olderId s c h]
  split <;> simp [hex]

theorem repoint_foldl_sched_nil {olderId : Nat} (cs : List Contact) :
    ∀ s : Store, s.sched = [] → (cs.foldl (repointStep olderId) s).sched = [] := by
  induction cs with
  | nil => intro s h; exact h
  | cons c rest ih => intro s h; exact ih _ (repointStep_sched_nil h)

theorem Demoted_repoint_foldl {x olderId : Nat} (cs : List Contact) :
    ∀ s : Store, s.sched = [] → Demoted s x olderId →
      Demoted (cs.foldl (repointStep olderId) s) x olderId := by
  induction cs with
  | nil => intro s _ hd; exact hd
  | cons c rest ih =>
      intro s h hd
      exact ih _ (repointStep_sched_nil h) (Demoted_repointStep h hd c)

theorem Demoted_repoint_foldl_mem {olderId : Nat} {c : Contact} (cs : List Contact) :
    ∀ s : Store, s.sched = [] → c ∈ cs → c.linkPrecedence = LinkPrecedence.secondary →
      (lookup s c.id).isSome → Demoted (cs.foldl (repointStep olderId) s) c.id olderId := by
  induction cs with
  | nil => intro s _ hmem; cases hmem
  | cons d rest ih =>
      intro s h hmem hsec hex
      rcases List.mem_cons.mp hmem with rfl | hmem
      · exact Demoted_repoint_foldl rest _ (repointStep_sched_nil h)
          (Demoted_repointStep_self h hex hsec)
      · exact ih _ (repointStep_sched_nil h) hmem hsec (lookup_isSome_repointStep h _ hex)

theorem lookup_create {s : Store} {x : Nat} {e : Contact}
    (em ph : Option String) (li : Option Nat) (lp : LinkPrecedence)
    (he : lookup s x = some e) : lookup ((s.create em ph li lp).2) x = some e := by
  have he' : s.table.find? (fun c => c.id == x) = some e := he
  rcases hs : s.sched with _ | ⟨b, t⟩
  · simp [Store.create, Store.opFail, hs, lookup, List.find?_append, he']
  · cases b <;> simp [Store.create, Store.opFail, hs, lookup, List.find?_append, he']

theorem Demoted_createSecondaryContact {s : Store} {x olderId : Nat}
    (r : IdentifyRequest) (pid : Nat) (hd : Demoted s x olderId) :
    Demoted (createSecondaryContact r pid s) x olderId := by
  obtain ⟨e, he, hl, hp⟩ := hd
  exact ⟨e, lookup_create _ _ _ _ he, hl, hp⟩

/-! ### Frame lemmas: read-only operations leave the table unchanged -/

theorem opFail_table (s : Store) : ((s.opFail).2).table = s.table := by
  cases hs : s.sched <;> simp [Store.opFail, hs]

theorem getById_table (s : Store) (id : Nat) : ((s.getById id).2).table = s.table := by
  unfold Store.getById
  rcases h : s.opFail with ⟨f, s1⟩
  have h1 : s1.table = s.table := by
    have := opFail_table s; rw [h] at this; exact this
  cases f <;> simp [h, h1]

theorem getLinkedContacts_table (s : Store) (pid : Nat) :
    ((s.getLinkedContacts pid).2).table = s.table := by
  unfold Store.getLinkedContacts
  rcases h : s.getById pid with ⟨res, s1⟩
  have h1 : s1.table = s.table := by
    have := getById_table s pid; rw [h] at this; exact this
  cases res with
  | none => simp [h, h1]
  | some p =>
      rcases h2 : s1.opFail with ⟨f, s2⟩
      have h3 : s2.table = s1.table := by
        have := opFail_table s1; rw [h2] at this; exact this
      cases f <;> simp [h, h2, h3, h1]

theorem buildConsolidatedResponse_table (pid : Nat) (s : Store) :
    ((buildConsolidatedResponse pid s).2).table = s.table := by
  unfold buildConsolidatedResponse
  rcases h : s.getLinkedContacts pid with ⟨res, s1⟩
  have h1 : s1.table = s.table := by
    have := getLinkedContacts_table s pid; rw [h] at this; exact this
  cases res with
  | none => simp [h, h1]
  | some l =>
      cases hf : l.find? (fun c => c.linkPrecedence == LinkPrecedence.primary) <;>
        simp [h, hf, h1]

theorem Demoted_build (pid : Nat) {s : Store} {x o : Nat} (hd : Demoted s x o) :
    Demoted ((buildConsolidatedResponse pid s).2) x o := by
  obtain ⟨e, he, hl, hp⟩ := hd
  refine ⟨e, ?_, hl, hp⟩
  show ((buildConsolidatedResponse pid s).2).table.find? (fun c => c.id == x) = some e
  rw [buildConsolidatedResponse_table]
  exact he

theorem lookup_map_isSome (s : Store) (id2 : Nat) (li : Option Nat)
    (lp : Option LinkPrecedence) (t : Nat) {x : Nat} (hEx : (lookup s x).isSome)
    (s2 : Store) (hT : s2.table = s.table.map (applyUpdate id2 li lp t)) :
    (lookup s2 x).isSome := by
  unfold lookup
  rw [hT, find?_id_map_applyUpdate]
  simpa [lookup] using hEx

/-! ### Concrete scenario exercising the two-chain merge -/

/-- Store after three requests: two unrelated primaries 0 and 1, then a
secondary 2 attached to primary 1 through a new phone. -/
def mergeScenarioPre : Store :=
  runSeq [⟨some "a", some "1"⟩, ⟨some "b", some "2"⟩, ⟨some "b", some "3"⟩] emptyStore

/-- Store after the fourth request (a, 2), which matches both chains and
triggers the two-chain merge of primary 1 into primary 0. -/
def mergeScenarioFinal : Store :=
  (identifyContact ⟨some "a", some "2"⟩ mergeScenarioPre).2

/-- Claim C1: refuted on the code.  Starting from the empty store, the
four-request sequence (a,1), (b,2), (b,3), (a,2) executes with every store
operation succeeding, yet the final store violates chain integrity: record 2
is a secondary whose linkedId 1 resolves to a record that is itself
secondary.  The merge of the last call re-points only the matched members of
the newer chain, and record 2 was not matched by that request. -/
theorem chainIntegrity_violated_by_merge :
    chainIntegrity mergeScenarioFinal = false ∧
    (lookup mergeScenarioFinal 2).map Contact.linkPrecedence
      = some LinkPrecedence.secondary ∧
    (lookup mergeScenarioFinal 2).map Contact.linkedId = some (some 1) ∧
    (lookup mergeScenarioFinal 1).map Contact.linkPrecedence
      = some LinkPrecedence.secondary := by
  decide

/-- Claim C2: counterexample.  In the two-chain merge triggered by request
(a, 2) the older root is 0 and the newer root is 1.  Record 2 was already a
secondary member of the newer chain but was not in the matched record set of
the request, and after the successful merge (primary id 0, root 1 demoted
under 0) its linkedId still points at the demoted root 1 rather than at the
older root 0. -/
theorem merge_leaves_unmatched_secondary_behind :
    (lookup mergeScenarioPre 2).map Contact.linkPrecedence = some LinkPrecedence.secondary ∧
    (lookup mergeScenarioPre 2).map Contact.linkedId = some (some 1) ∧
    (identifyContact ⟨some "a", some "2"⟩ mergeScenarioPre).1.success = true ∧
    ((identifyContact ⟨some "a", some "2"⟩ mergeScenarioPre).1.data).map
      ConsolidatedContact.primaryContactId = some 0 ∧
    (lookup mergeScenarioFinal 1).map Contact.linkedId = some (some 0) ∧
    (lookup mergeScenarioFinal 2).map Contact.linkedId = some (some 1) := by
  decide

/-- Claim C2 (amended): during a two-chain merge against a reliable store,
every member of the newer chain that is in the matched record set and was
already a secondary ends up stored with linkedId equal to the older chain
root id (members outside the matched record set are not re-pointed, as the
counterexample shows). -/
theorem linkTwoPrimaryContacts_repoints_matched_secondaries
    (g1 g2 : ContactGroup) (r : IdentifyRequest) (s : Store) (c : Contact)
    (hS : s.sched = [])
    (hMem : c ∈ (if g1.createdAt < g2.createdAt then g2 else g1).contacts)
    (hSec : c.linkPrecedence = LinkPrecedence.secondary)
    (hEx : (lookup s c.id).isSome) :
    Demoted ((linkTwoPrimaryContacts [g1, g2] r s).2) c.id
      ((if g1.createdAt < g2.createdAt then g1 else g2).primaryId) := by
  by_cases hlt : g1.createdAt < g2.createdAt
  · simp only [if_pos hlt] at hMem ⊢
    have hu := update_sched_nil s g2.primaryId (some g1.primaryId) (some .secondary) hS
    simp only [linkTwoPrimaryContacts, if_pos hlt, hu]
    apply Demoted_build
    split
    · apply Demoted_createSecondaryContact
      refine Demoted_repoint_foldl_mem _ _ ?_ hMem hSec ?_
      · exact hS
      · exact lookup_map_isSome s _ _ _ _ hEx _ rfl
    · refine Demoted_repoint_foldl_mem _ _ ?_ hMem hSec ?_
      · exact hS
      · exact lookup_map_isSome s _ _ _ _ hEx _ rfl
  · simp only [if_neg hlt] at hMem ⊢
    have hu := update_sched_nil s g1.primaryId (some g2.primaryId) (some .secondary) hS
    simp only [linkTwoPrimaryContacts, if_neg hlt, hu]
    apply Demoted_build
    split
    · apply Demoted_createSecondaryContact
      refine Demoted_repoint_foldl_mem _ _ ?_ hMem hSec ?_
      · exact hS
      · exact lookup_map_isSome s _ _ _ _ hEx _ rfl
    · refine Demoted_repoint_foldl_mem _ _ ?_ hMem hSec ?_
      · exact hS
      · exact lookup_map_isSome s _ _ _ _ hEx _ rfl

/-- Concrete primary used by the re-point witness. -/
def wC0 : Contact :=
  { id := 0, email := some "a", phoneNumber := some "1", linkPrecedence := .primary,
    createdAt := 0, updatedAt := 0 }

/-- Concrete newer-chain primary used by the re-point witness. -/
def wC1 : Contact :=
  { id := 1, email := some "b", phoneNumber := some "2", linkPrecedence := .primary,
    createdAt := 1, updatedAt := 1 }

/-- Concrete matched secondary of the newer chain used by the re-point
witness. -/
def wC2 : Contact :=
  { id := 2, email := some "c", phoneNumber := some "3", linkedId := some 1,
    linkPrecedence := .secondary, createdAt := 2, updatedAt := 2 }

/-- Concrete reliable store used by the re-point witness. -/
def wStore : Store :=
  { table := [wC0, wC1, wC2], nextId := 3, now := 3, sched := [], failures := 0,
    reads := 0, writes := 0 }

/-- Claim C2 witness: the amended re-point theorem applied at a concrete
merge of the chain rooted at 1 (members 1 and 2 matched) into the chain
rooted at 0. -/
theorem linkTwoPrimaryContacts_repoints_matched_secondaries_witness :
    Demoted ((linkTwoPrimaryContacts [⟨0, 0, [wC0]⟩, ⟨1, 1, [wC1, wC2]⟩]
      ⟨some "a", some "2"⟩ wStore).2) 2 0 :=
  linkTwoPrimaryContacts_repoints_matched_secondaries ⟨0, 0, [wC0]⟩ ⟨1, 1, [wC1, wC2]⟩
    ⟨some "a", some "2"⟩ wStore wC2 rfl (by decide) rfl (by decide)

def noEmptyStrings (s : Store) : Prop :=
  ∀ c ∈ s.table, c.email ≠ some "" ∧ c.phoneNumber ≠ some ""

theorem guard_ne_empty (o : Option String) : (if truthy o then o else none) ≠ some "" := by
  cases o with
  | none => simp
  | some v =>
      by_cases hv : v = ""
      · simp [truthy, hv]
      · have hb : (v == "") = false := by simpa using hv
        simp [truthy, hb, hv]

theorem noEmpty_of_table_eq {s s2 : Store} (h : s2.table = s.table) :
    noEmptyStrings s → noEmptyStrings s2 := by
  intro hn c hc
  exact hn c (h ▸ hc)

theorem applyUpdate_email (id : Nat) (li : Option Nat) (lp : Option LinkPrecedence) (t : Nat)
    (c : Contact) : (applyUpdate id li lp t c).email = c.email := by
  unfold applyUpdate
  split <;> rfl

theorem applyUpdate_phone (id : Nat) (li : Option Nat) (lp : Option LinkPrecedence) (t : Nat)
    (c : Contact) : (applyUpdate id li lp t c).phoneNumber = c.phoneNumber := by
  unfold applyUpdate
  split <;> rfl

theorem noEmpty_update {s : Store} (id : Nat) (li : Option Nat) (lp : Option LinkPrecedence)
    (hn : noEmptyStrings s) : noEmptyStrings ((s.update id li lp).2) := by
  unfold Store.update
  rcases h : s.opFail with ⟨f, s1⟩
  have h1 : s1.table = s.table := by
    have := opFail_table s; rw [h] at this; exact this
  cases f
  · simp only [h]
    intro c hc
    simp only [Bool.false_eq_true, if_false] at hc
    obtain ⟨d, hd, rfl⟩ := List.mem_map.mp hc
    rw [applyUpdate_email, applyUpdate_phone]
    exact hn d (h1 ▸ hd)
  · simp only [h]
    intro c hc
    simp only [if_true] at hc
    exact hn c (h1 ▸ hc)

theorem noEmpty_create {s : Store} {em ph : Option String} (li : Option Nat)
    (lp : LinkPrecedence) (hem : em ≠ some "") (hph : ph ≠ some "")
    (hn : noEmptyStrings s) : noEmptyStrings ((s.create em ph li lp).2) := by
  unfold Store.create
  rcases h : s.opFail with ⟨f, s1⟩
  have h1 : s1.table = s.table := by
    have := opFail_table s; rw [h] at this; exact this
  cases f
  · simp only [h]
    intro c hc
    simp only [Bool.false_eq_true, if_false] at hc
    rcases List.mem_append.mp hc with hc2 | hc2
    · exact hn c (h1 ▸ hc2)
    · rw [List.mem_singleton] at hc2
      subst hc2
      exact ⟨hem, hph⟩
  · simp only [h]
    intro c hc
    simp only [if_true] at hc
    exact hn c (h1 ▸ hc)

theorem noEmpty_createSecondaryContact {s : Store} (r : IdentifyRequest) (pid : Nat)
    (hn : noEmptyStrings s) : noEmptyStrings (createSecondaryContact r pid s) :=
  noEmpty_create _ _ (guard_ne_empty _) (guard_ne_empty _) hn

theorem noEmpty_createNewPrimaryContact {s : Store} (r : IdentifyRequest)
    (hn : noEmptyStrings s) : noEmptyStrings ((createNewPrimaryContact r s).2) := by
  unfold createNewPrimaryContact
  rcases h : s.create (if truthy r.email then r.email else none)
      (if truthy r.phoneNumber then r.phoneNumber else none) none .primary with ⟨res, s1⟩
  have hn1 : noEmptyStrings s1 := by
    have := noEmpty_create none .primary (guard_ne_empty r.email)
      (guard_ne_empty r.phoneNumber) hn
    rw [h] at this
    exact this
  cases res <;> simp [h] <;> exact hn1

theorem noEmpty_repointStep {s : Store} (o : Nat) (c : Contact) (hn : noEmptyStrings s) :
    noEmptyStrings (repointStep o s c) := by
  unfold repointStep
  split
  · exact noEmpty_update _ _ _ hn
  · exact hn

theorem noEmpty_repoint_foldl (o : Nat) (cs : List Contact) :
    ∀ s : Store, noEmptyStrings s → noEmptyStrings (cs.foldl (repointStep o) s) := by
  induction cs with
  | nil => intro s hn; exact hn
  | cons c rest ih => intro s hn; exact ih _ (noEmpty_repointStep o c hn)

theorem findByEmailOrPhone_table (s : Store) (qe qp : Option String) :
    ((s.findByEmailOrPhone qe qp).2).table = s.table := by
  unfold Store.findByEmailOrPhone
  by_cases h0 : (qe.isNone && qp.isNone) = true
  · simp [h0]
  · rcases h : s.opFail with ⟨f, s1⟩
    have h1 : s1.table = s.table := by
      have := opFail_table s; rw [h] at this; exact this
    cases f <;> simp [h0, h, h1]

theorem groupGo_table : ∀ (cs : List Contact) (gs : List ContactGroup) (s : Store),
    ((groupGo cs gs s).2).table = s.table := by
  intro cs
  induction cs with
  | nil => intro gs s; rfl
  | cons c rest ih =>
      intro gs s
      cases hr : rootIdOf c with
      | none => simp [groupGo, hr]
      | some rootId =>
          by_cases hg : hasGroup gs rootId
          · simp [groupGo, hr, hg, ih]
          · cases hp : c.linkPrecedence with
            | primary => simp [groupGo, hr, hg, hp, ih]
            | secondary =>
                rcases hb : s.getById rootId with ⟨res, s1⟩
                have h1 : s1.table = s.table := by
                  have := getById_table s rootId; rw [hb] at this; exact this
                cases res with
                | none => simp [groupGo, hr, hg, hp, hb, h1]
                | some pc => simp [groupGo, hr, hg, hp, hb, ih, h1]

theorem noEmpty_linkTwoPrimaryContacts (groups : List ContactGroup) (r : IdentifyRequest)
    (s : Store) (hn : noEmptyStrings s) :
    noEmptyStrings ((linkTwoPrimaryContacts groups r s).2) := by
  rcases groups with _ | ⟨g1, _ | ⟨g2, _ | ⟨g3, rest⟩⟩⟩
  · exact hn
  · exact hn
  · by_cases hlt : g1.createdAt < g2.createdAt
    · rcases hu : s.update g2.primaryId (some g1.primaryId)
          (some LinkPrecedence.secondary) with ⟨flag, s1⟩
      have hn1 : noEmptyStrings s1 := by
        have := noEmpty_update g2.primaryId (some g1.primaryId)
          (some LinkPrecedence.secondary) hn
        rw [hu] at this
        exact this
      cases flag
      · simp only [linkTwoPrimaryContacts, if_pos hlt, hu]
        exact hn1
      · simp only [linkTwoPrimaryContacts, if_pos hlt, hu]
        have hn2 := noEmpty_repoint_foldl g1.primaryId g2.contacts s1 hn1
        split
        · exact noEmpty_of_table_eq (buildConsolidatedResponse_table _ _)
            (noEmpty_createSecondaryContact _ _ hn2)
        · exact noEmpty_of_table_eq (buildConsolidatedResponse_table _ _) hn2
    · rcases hu : s.update g1.primaryId (some g2.primaryId)
          (some LinkPrecedence.secondary) with ⟨flag, s1⟩
      have hn1 : noEmptyStrings s1 := by
        have := noEmpty_update g1.primaryId (some g2.primaryId)
          (some LinkPrecedence.secondary) hn
        rw [hu] at this
        exact this
      cases flag
      · simp only [linkTwoPrimaryContacts, if_neg hlt, hu]
        exact hn1
      · simp only [linkTwoPrimaryContacts, if_neg hlt, hu]
        have hn2 := noEmpty_repoint_foldl g2.primaryId g1.contacts s1 hn1
        split
        · exact noEmpty_of_table_eq (buildConsolidatedResponse_table _ _)
            (noEmpty_createSecondaryContact _ _ hn2)
        · exact noEmpty_of_table_eq (buildConsolidatedResponse_table _ _) hn2
  · exact hn

theorem noEmpty_buildAfterOptionalCreate (pid : Nat) (b : Bool) (r : IdentifyRequest)
    (pid2 : Nat) (s : Store) (hn : noEmptyStrings s) :
    noEmptyStrings ((buildConsolidatedResponse pid
      (if b = true then createSecondaryContact r pid2 s else s)).2) := by
  cases b
  · simp only [Bool.false_eq_true, if_false]
    exact noEmpty_of_table_eq (buildConsolidatedResponse_table _ _) hn
  · simp only [if_true]
    exact noEmpty_of_table_eq (buildConsolidatedResponse_table _ _)
      (noEmpty_createSecondaryContact _ _ hn)

theorem noEmpty_identifyContact (r : IdentifyRequest) (s : Store) (hn : noEmptyStrings s) :
    noEmptyStrings ((identifyContact r s).2) := by
  unfold identifyContact
  by_cases hv : (!(truthy r.email) && !(truthy r.phoneNumber)) = true
  · simp only [hv, if_true]
    exact hn
  · have hv2 : (!(truthy r.email) && !(truthy r.phoneNumber)) = false :=
      Bool.eq_false_iff.mpr hv
    simp only [hv2, Bool.false_eq_true, if_false]
    rcases hf : s.findByEmailOrPhone (queryParamsOf r).1 (queryParamsOf r).2 with ⟨res, s1⟩
    have hn1 : noEmptyStrings s1 := by
      refine noEmpty_of_table_eq ?_ hn
      have := findByEmailOrPhone_table s (queryParamsOf r).1 (queryParamsOf r).2
      rw [hf] at this
      exact this
    cases res with
    | none => exact hn1
    | some M =>
        by_cases he : M.isEmpty
        · simp only [he, if_true]
          exact noEmpty_createNewPrimaryContact r hn1
        · have he2 : M.isEmpty = false := Bool.eq_false_iff.mpr he
          simp only [he2, Bool.false_eq_true, if_false]
          rcases hg : groupContactsByPrimary M s1 with ⟨gres, s2⟩
          have hn2 : noEmptyStrings s2 := by
            refine noEmpty_of_table_eq ?_ hn1
            have := groupGo_table M [] s1
            rw [show groupGo M [] s1 = (gres, s2) from hg] at this
            exact this
          cases gres with
          | none => exact hn2
          | some gs =>
              by_cases l1 : (gs.length == 1) = true
              · simp only [l1, if_true]
                rcases gs with _ | ⟨g, tail⟩
                · exact hn2
                · exact noEmpty_buildAfterOptionalCreate _ _ _ _ _ hn2
              · have l1f : (gs.length == 1) = false := Bool.eq_false_iff.mpr l1
                simp only [l1f, Bool.false_eq_true, if_false]
                by_cases l2 : (gs.length == 2) = true
                · simp only [l2, if_true]
                  exact noEmpty_linkTwoPrimaryContacts gs r s2 hn2
                · have l2f : (gs.length == 2) = false := Bool.eq_false_iff.mpr l2
                  simp only [l2f, Bool.false_eq_true, if_false]
                  rcases gs with _ | ⟨g, rest⟩
                  · exact hn2
                  · exact noEmpty_of_table_eq (buildConsolidatedResponse_table _ _) hn2

/-- Claim C8: a request supplying neither email nor phoneNumber is rejected
with the at-least-one-required message before any store operation: the
result is a failure and the store state, instrumentation counters included,
is returned untouched. -/
theorem identify_without_fields_rejected (s : Store) :
    identifyContact ⟨none, none⟩ s
      = ({ success := false,
           error := some "At least one of email or phoneNumber must be provided" }, s) := rfl

/-- Claim C10: an empty-string field is treated as absent at the boundary of
the core.  A request with both fields set to the empty string is rejected
exactly like one with both fields missing, with a failure result and the
store untouched; the query parameters passed to the matching scan never
carry an empty string; and across any identify call no stored record ever
carries an empty-string email or phone. -/
theorem empty_string_treated_as_absent :
    (∀ s : Store, identifyContact ⟨some "", some ""⟩ s = identifyContact ⟨none, none⟩ s) ∧
    (∀ s : Store, identifyContact ⟨some "", some ""⟩ s
        = ({ success := false,
             error := some "At least one of email or phoneNumber must be provided" }, s)) ∧
    (∀ r : IdentifyRequest, (queryParamsOf r).1 ≠ some "" ∧ (queryParamsOf r).2 ≠ some "") ∧
    (∀ (r : IdentifyRequest) (s : Store), noEmptyStrings s →
      noEmptyStrings ((identifyContact r s).2)) := by
  refine ⟨fun s => rfl, fun s => rfl, fun r => ⟨?_, ?_⟩,
    fun r s hn => noEmpty_identifyContact r s hn⟩
  · exact guard_ne_empty r.email
  · exact guard_ne_empty r.phoneNumber

/-- Claim C10 witness: the preservation part of the theorem applied to the
empty store and a concrete request. -/
theorem empty_string_treated_as_absent_witness :
    noEmptyStrings emptyStore ∧
    noEmptyStrings ((identifyContact ⟨some "x", none⟩ emptyStore).2) :=
  ⟨fun c hc => absurd hc (List.not_mem_nil c),
   empty_string_treated_as_absent.2.2.2 ⟨some "x", none⟩ emptyStore
     (fun c hc => absurd hc (List.not_mem_nil c))⟩


/-- Relation between an input store and the store after read-only work: the
table, id counter, clock and write counter are unchanged (only the failure
schedule and the read instrumentation may differ). -/
def ReadOnly (s s2 : Store) : Prop :=
  s2.table = s.table ∧ s2.nextId = s.nextId ∧ s2.now = s.now ∧ s2.writes = s.writes

theorem readOnly_refl (s : Store) : ReadOnly s s := ⟨rfl, rfl, rfl, rfl⟩

theorem readOnly_trans {s s2 s3 : Store} (h1 : ReadOnly s s2) (h2 : ReadOnly s2 s3) :
    ReadOnly s s3 :=
  ⟨h2.1.trans h1.1, h2.2.1.trans h1.2.1, h2.2.2.1.trans h1.2.2.1, h2.2.2.2.trans h1.2.2.2⟩

theorem opFail_readOnly (s : Store) : ReadOnly s ((s.opFail).2) := by
  cases hs : s.sched <;> simp [Store.opFail, hs, ReadOnly]

theorem getById_readOnly (s : Store) (id : Nat) : ReadOnly s ((s.getById id).2) := by
  unfold Store.getById
  rcases h : s.opFail with ⟨f, s1⟩
  have h1 : ReadOnly s s1 := by
    have := opFail_readOnly s; rw [h] at this; exact this
  cases f <;> simp [h] <;> exact ⟨h1.1, h1.2.1, h1.2.2.1, h1.2.2.2⟩

theorem findByEmailOrPhone_readOnly (s : Store) (qe qp : Option String) :
    ReadOnly s ((s.findByEmailOrPhone qe qp).2) := by
  unfold Store.findByEmailOrPhone
  by_cases h0 : (qe.isNone && qp.isNone) = true
  · simp [h0]
    exact readOnly_refl s
  · rcases h : s.opFail with ⟨f, s1⟩
    have h1 : ReadOnly s s1 := by
      have := opFail_readOnly s; rw [h] at this; exact this
    cases f <;> simp [h0, h] <;> exact ⟨h1.1, h1.2.1, h1.2.2.1, h1.2.2.2⟩

theorem getLinkedContacts_readOnly (s : Store) (pid : Nat) :
    ReadOnly s ((s.getLinkedContacts pid).2) := by
  unfold Store.getLinkedContacts
  rcases h : s.getById pid with ⟨res, s1⟩
  have h1 : ReadOnly s s1 := by
    have := getById_readOnly s pid; rw [h] at this; exact this
  cases res with
  | none => simpa [h] using h1
  | some p =>
      rcases h2 : s1.opFail with ⟨f, s2⟩
      have h3 : ReadOnly s1 s2 := by
        have := opFail_readOnly s1; rw [h2] at this; exact this
      cases f <;> simp [h, h2] <;>
        exact (readOnly_trans h1 ⟨h3.1, h3.2.1, h3.2.2.1, h3.2.2.2⟩)

theorem buildConsolidatedResponse_readOnly (pid : Nat) (s : Store) :
    ReadOnly s ((buildConsolidatedResponse pid s).2) := by
  unfold buildConsolidatedResponse
  rcases h : s.getLinkedContacts pid with ⟨res, s1⟩
  have h1 : ReadOnly s s1 := by
    have := getLinkedContacts_readOnly s pid; rw [h] at this; exact this
  cases res with
  | none => simpa [h] using h1
  | some l =>
      cases hf : l.find? (fun c => c.linkPrecedence == LinkPrecedence.primary) <;>
        simpa [h, hf] using h1

theorem groupGo_readOnly : ∀ (cs : List Contact) (gs : List ContactGroup) (s : Store),
    ReadOnly s ((groupGo cs gs s).2) := by
  intro cs
  induction cs with
  | nil => intro gs s; exact readOnly_refl s
  | cons c rest ih =>
      intro gs s
      cases hr : rootIdOf c with
      | none => simp [groupGo, hr]; exact readOnly_refl s
      | some rootId =>
          by_cases hg : hasGroup gs rootId
          · simp [groupGo, hr, hg]
            exact ih _ s
          · cases hp : c.linkPrecedence with
            | primary =>
                simp [groupGo, hr, hg, hp]
                exact ih _ s
            | secondary =>
                rcases hb : s.getById rootId with ⟨res, s1⟩
                have h1 : ReadOnly s s1 := by
                  have := getById_readOnly s rootId; rw [hb] at this; exact this
                cases res with
                | none => simpa [groupGo, hr, hg, hp, hb] using h1
                | some pc =>
                    simp [groupGo, hr, hg, hp, hb]
                    exact readOnly_trans h1 (ih _ s1)

theorem foldl_oldest_mem : ∀ (rest : List ContactGroup) (g : ContactGroup),
    rest.foldl (fun o c => if o.createdAt < c.createdAt then o else c) g ∈ g :: rest := by
  intro rest
  induction rest with
  | nil => intro g; simp
  | cons c t ih =>
      intro g
      simp only [List.foldl_cons]
      by_cases hc : g.createdAt < c.createdAt
      · rw [if_pos hc]
        have h := ih g
        rcases List.mem_cons.mp h with h1 | h1
        · rw [h1]; exact List.mem_cons_self _ _
        · exact List.mem_cons_of_mem _ (List.mem_cons_of_mem _ h1)
      · rw [if_neg hc]
        have h := ih c
        rcases List.mem_cons.mp h with h1 | h1
        · rw [h1]; exact List.mem_cons_of_mem _ (List.mem_cons_self _ _)
        · exact List.mem_cons_of_mem _ (List.mem_cons_of_mem _ h1)

theorem foldl_oldest_le : ∀ (rest : List ContactGroup) (g : ContactGroup),
    ∀ x ∈ g :: rest,
      (rest.foldl (fun o c => if o.createdAt < c.createdAt then o else c) g).createdAt
        ≤ x.createdAt := by
  intro rest
  induction rest with
  | nil =>
      intro g x hx
      rcases List.mem_cons.mp hx with h1 | h1
      · rw [h1]
        exact Nat.le_refl _
      · cases h1
  | cons c t ih =>
      intro g x hx
      simp only [List.foldl_cons]
      by_cases hc : g.createdAt < c.createdAt
      · rw [if_pos hc]
        rcases List.mem_cons.mp hx with h1 | h1
        · rw [h1]; exact ih g g (List.mem_cons_self _ _)
        · rcases List.mem_cons.mp h1 with h2 | h2
          · rw [h2]
            exact le_trans (ih g g (List.mem_cons_self _ _)) (le_of_lt hc)
          · exact ih g x (List.mem_cons_of_mem _ h2)
      · rw [if_neg hc]
        rcases List.mem_cons.mp hx with h1 | h1
        · rw [h1]
          exact le_trans (ih c c (List.mem_cons_self _ _)) (Nat.le_of_not_lt hc)
        · rcases List.mem_cons.mp h1 with h2 | h2
          · rw [h2]; exact ih c c (List.mem_cons_self _ _)
          · exact ih c x (List.mem_cons_of_mem _ h2)


/-- Claim C9: when the matched records partition into more than two distinct
chains, identifyContact picks the group produced by the reduce over root
createdAt (a member of the group list whose root createdAt is minimal),
returns the consolidated view built on that root, and performs no store
mutation at all: table, nextId, clock and write counter of the final state
equal those of the input state. -/
theorem identify_multi_chain_conservative
    (r : IdentifyRequest) (s s1 s2 : Store) (M : List Contact)
    (g : ContactGroup) (rest : List ContactGroup)
    (hV : (truthy r.email || truthy r.phoneNumber) = true)
    (hF : s.findByEmailOrPhone (queryParamsOf r).1 (queryParamsOf r).2 = (some M, s1))
    (hM : M.isEmpty = false)
    (hG : groupContactsByPrimary M s1 = (some (g :: rest), s2))
    (hLen : 2 ≤ rest.length) :
    identifyContact r s
      = buildConsolidatedResponse
          (rest.foldl (fun o c => if o.createdAt < c.createdAt then o else c) g).primaryId s2 ∧
    (rest.foldl (fun o c => if o.createdAt < c.createdAt then o else c) g) ∈ g :: rest ∧
    (∀ x ∈ g :: rest,
      (rest.foldl (fun o c => if o.createdAt < c.createdAt then o else c) g).createdAt
        ≤ x.createdAt) ∧
    ReadOnly s ((identifyContact r s).2) := by
  have hV2 : (!(truthy r.email) && !(truthy r.phoneNumber)) = false := by
    rw [← Bool.not_or, hV]
    rfl
  have hl1 : ((g :: rest).length == 1) = false := by
    have : (g :: rest).length ≠ 1 := by
      simp only [List.length_cons]
      omega
    simpa using this
  have hl2 : ((g :: rest).length == 2) = false := by
    have : (g :: rest).length ≠ 2 := by
      simp only [List.length_cons]
      omega
    simpa using this
  have heq : identifyContact r s
      = buildConsolidatedResponse
          (rest.foldl (fun o c => if o.createdAt < c.createdAt then o else c) g).primaryId s2 := by
    simp only [identifyContact, hV2, Bool.false_eq_true, if_false, hF, hM, hG, hl1, hl2]
  refine ⟨heq, foldl_oldest_mem rest g, foldl_oldest_le rest g, ?_⟩
  have ro1 : ReadOnly s s1 := by
    have := findByEmailOrPhone_readOnly s (queryParamsOf r).1 (queryParamsOf r).2
    rw [hF] at this
    exact this
  have ro2 : ReadOnly s1 s2 := by
    have := groupGo_readOnly M [] s1
    rw [show groupGo M [] s1 = (some (g :: rest), s2) from hG] at this
    exact this
  rw [heq]
  exact readOnly_trans (readOnly_trans ro1 ro2) (buildConsolidatedResponse_readOnly _ _)


def wP0 : Contact := ⟨0, some "e", none, none, .primary, 0, 0⟩

def wP1 : Contact := ⟨1, none, some "p", none, .primary, 1, 1⟩

def wP2 : Contact := ⟨2, some "z", some "q", none, .primary, 2, 2⟩

def wS3 : Contact := ⟨3, some "e", some "w", some 2, .secondary, 3, 3⟩

def wStore9 : Store := ⟨[wP0, wP1, wP2, wS3], 4, 4, [], 0, 0, 0⟩

/-- Claim C9 witness: three chains matched (two primaries hit directly, a
third chain hit through a secondary), the oldest root 0 is selected and
nothing is written. -/
theorem identify_multi_chain_conservative_witness :
    identifyContact ⟨some "e", some "p"⟩ wStore9
        = buildConsolidatedResponse 0 { wStore9 with reads := 2 } ∧
    (⟨0, 0, [wP0]⟩ : ContactGroup) ∈
      [(⟨0, 0, [wP0]⟩ : ContactGroup), ⟨1, 1, [wP1]⟩, ⟨2, 2, [wS3]⟩] ∧
    (∀ x ∈ [(⟨0, 0, [wP0]⟩ : ContactGroup), ⟨1, 1, [wP1]⟩, ⟨2, 2, [wS3]⟩],
      (0:Nat) ≤ x.createdAt) ∧
    ReadOnly wStore9 ((identifyContact ⟨some "e", some "p"⟩ wStore9).2) :=
  identify_multi_chain_conservative ⟨some "e", some "p"⟩ wStore9
    { wStore9 with reads := 1 } { wStore9 with reads := 2 } [wP0, wP1, wS3]
    ⟨0, 0, [wP0]⟩ [⟨1, 1, [wP1]⟩, ⟨2, 2, [wS3]⟩]
    (by decide) (by decide) (by decide) (by decide) (by decide)


/-- Claim C6: idempotence against an initially empty store.  For every
request carrying at least one truthy field, the first call succeeds and
creates the primary; the identical second call succeeds, reports the same
primaryContactId, reports empty secondaryContactIds on both calls, and
writes nothing (table and id counter unchanged by the second call). -/
theorem identify_repeat_on_empty_idempotent
    (r : IdentifyRequest)
    (hV : (truthy r.email || truthy r.phoneNumber) = true) :
    (identifyContact r emptyStore).1.success = true ∧
    (identifyContact r (identifyContact r emptyStore).2).1.success = true ∧
    ((identifyContact r (identifyContact r emptyStore).2).1.data).map
        ConsolidatedContact.primaryContactId
      = ((identifyContact r emptyStore).1.data).map ConsolidatedContact.primaryContactId ∧
    ((identifyContact r emptyStore).1.data).map ConsolidatedContact.secondaryContactIds
      = some [] ∧
    ((identifyContact r (identifyContact r emptyStore).2).1.data).map
        ConsolidatedContact.secondaryContactIds = some [] ∧
    (identifyContact r (identifyContact r emptyStore).2).2.table
      = (identifyContact r emptyStore).2.table ∧
    (identifyContact r (identifyContact r emptyStore).2).2.nextId
      = (identifyContact r emptyStore).2.nextId := by
  obtain ⟨oe, op⟩ := r
  cases oe with
  | none =>
      cases op with
      | none => simp [truthy] at hV
      | some p =>
          have hp : (p == "") = false := by
            by_cases h : p = ""
            · subst h; simp [truthy] at hV
            · simpa using h
          simp [identifyContact, queryParamsOf, truthy, hp, emptyStore,
            Store.findByEmailOrPhone, Store.opFail, matchPred, createNewPrimaryContact,
            Store.create, groupContactsByPrimary, groupGo, rootIdOf, hasGroup,
            shouldCreateSecondaryContact, buildConsolidatedResponse,
            Store.getLinkedContacts, Store.getById, collectEmail, collectPhone]
  | some e =>
      by_cases he : e = ""
      · subst he
        cases op with
        | none => simp [truthy] at hV
        | some p =>
            have hp : (p == "") = false := by
              by_cases h : p = ""
              · subst h; simp [truthy] at hV
              · simpa using h
            simp [identifyContact, queryParamsOf, truthy, hp, emptyStore,
              Store.findByEmailOrPhone, Store.opFail, matchPred, createNewPrimaryContact,
              Store.create, groupContactsByPrimary, groupGo, rootIdOf, hasGroup,
              shouldCreateSecondaryContact, buildConsolidatedResponse,
              Store.getLinkedContacts, Store.getById, collectEmail, collectPhone]
      · have he2 : (e == "") = false := by simpa using he
        cases op with
        | none =>
            simp [identifyContact, queryParamsOf, truthy, he2, emptyStore,
              Store.findByEmailOrPhone, Store.opFail, matchPred, createNewPrimaryContact,
              Store.create, groupContactsByPrimary, groupGo, rootIdOf, hasGroup,
              shouldCreateSecondaryContact, buildConsolidatedResponse,
              Store.getLinkedContacts, Store.getById, collectEmail, collectPhone]
        | some p =>
            by_cases hp : p = ""
            · subst hp
              simp [identifyContact, queryParamsOf, truthy, he2, emptyStore,
                Store.findByEmailOrPhone, Store.opFail, matchPred, createNewPrimaryContact,
                Store.create, groupContactsByPrimary, groupGo, rootIdOf, hasGroup,
                shouldCreateSecondaryContact, buildConsolidatedResponse,
                Store.getLinkedContacts, Store.getById, collectEmail, collectPhone]
            · have hp2 : (p == "") = false := by simpa using hp
              simp [identifyContact, queryParamsOf, truthy, he2, hp2, emptyStore,
                Store.findByEmailOrPhone, Store.opFail, matchPred, createNewPrimaryContact,
                Store.create, groupContactsByPrimary, groupGo, rootIdOf, hasGroup,
                shouldCreateSecondaryContact, buildConsolidatedResponse,
                Store.getLinkedContacts, Store.getById, collectEmail, collectPhone]

/-- Claim C6 witness: the idempotence theorem applied to the request with
email a and phone 1. -/
theorem identify_repeat_on_empty_idempotent_witness :
    (identifyContact ⟨some "a", some "1"⟩ emptyStore).1.success = true ∧
    (identifyContact ⟨some "a", some "1"⟩
      (identifyContact ⟨some "a", some "1"⟩ emptyStore).2).1.success = true ∧
    ((identifyContact ⟨some "a", some "1"⟩
        (identifyContact ⟨some "a", some "1"⟩ emptyStore).2).1.data).map
        ConsolidatedContact.primaryContactId
      = ((identifyContact ⟨some "a", some "1"⟩ emptyStore).1.data).map
          ConsolidatedContact.primaryContactId ∧
    ((identifyContact ⟨some "a", some "1"⟩ emptyStore).1.data).map
        ConsolidatedContact.secondaryContactIds = some [] ∧
    ((identifyContact ⟨some "a", some "1"⟩
        (identifyContact ⟨some "a", some "1"⟩ emptyStore).2).1.data).map
        ConsolidatedContact.secondaryContactIds = some [] ∧
    (identifyContact ⟨some "a", some "1"⟩
        (identifyContact ⟨some "a", some "1"⟩ emptyStore).2).2.table
      = (identifyContact ⟨some "a", some "1"⟩ emptyStore).2.table ∧
    (identifyContact ⟨some "a", some "1"⟩
        (identifyContact ⟨some "a", some "1"⟩ emptyStore).2).2.nextId
      = (identifyContact ⟨some "a", some "1"⟩ emptyStore).2.nextId :=
  identify_repeat_on_empty_idempotent ⟨some "a", some "1"⟩ (by decide)


theorem shouldCreate_eq (r : IdentifyRequest) (cs : List Contact) :
    shouldCreateSecondaryContact r cs
      = ((truthy r.email && !(cs.any (fun c => c.email == r.email))) ||
         (truthy r.phoneNumber && !(cs.any (fun c => c.phoneNumber == r.phoneNumber)))) := by
  unfold shouldCreateSecondaryContact
  by_cases hx : cs.any (fun c => c.email == r.email && c.phoneNumber == r.phoneNumber) = true
  · simp only [hx, if_true]
    obtain ⟨c, hc, hcb⟩ := List.any_eq_true.mp hx
    rw [Bool.and_eq_true] at hcb
    have he : cs.any (fun c => c.email == r.email) = true :=
      List.any_eq_true.mpr ⟨c, hc, hcb.1⟩
    have hp : cs.any (fun c => c.phoneNumber == r.phoneNumber) = true :=
      List.any_eq_true.mpr ⟨c, hc, hcb.2⟩
    simp [he, hp]
  · have hx2 : cs.any (fun c => c.email == r.email && c.phoneNumber == r.phoneNumber)
        = false := Bool.eq_false_iff.mpr hx
    simp only [hx2, Bool.false_eq_true, if_false]

theorem findByEmailOrPhone_sched_nil (s : Store) (qe qp : Option String)
    (h : s.sched = []) (hq : (qe.isNone && qp.isNone) = false) :
    s.findByEmailOrPhone qe qp
      = (some (s.table.filter (matchPred qe qp)), { s with reads := s.reads + 1 }) := by
  unfold Store.findByEmailOrPhone
  simp [hq, Store.opFail, h]

theorem pushMember_extends (gs : List ContactGroup) (rootId : Nat) (c : Contact) :
    ∀ g0 ∈ gs, ∃ g1 ∈ pushMember gs rootId c,
      g0.primaryId = g1.primaryId ∧ ∀ x ∈ g0.contacts, x ∈ g1.contacts := by
  induction gs with
  | nil => intro g0 h; cases h
  | cons g t ih =>
      intro g0 h0
      rcases List.mem_cons.mp h0 with rfl | h0
      · unfold pushMember
        by_cases hk : (g0.primaryId == rootId) = true
        · simp only [hk, if_true]
          exact ⟨{ g0 with contacts := g0.contacts ++ [c] }, List.mem_cons_self _ _, rfl,
            fun x hx => List.mem_append.mpr (Or.inl hx)⟩
        · have hk2 : (g0.primaryId == rootId) = false := Bool.eq_false_iff.mpr hk
          simp only [hk2, Bool.false_eq_true, if_false]
          exact ⟨g0, List.mem_cons_self _ _, rfl, fun x hx => hx⟩
      · unfold pushMember
        by_cases hk : (g.primaryId == rootId) = true
        · simp only [hk, if_true]
          exact ⟨g0, List.mem_cons_of_mem _ h0, rfl, fun x hx => hx⟩
        · have hk2 : (g.primaryId == rootId) = false := Bool.eq_false_iff.mpr hk
          simp only [hk2, Bool.false_eq_true, if_false]
          obtain ⟨g1, hg1, hkey, hsub⟩ := ih g0 h0
          exact ⟨g1, List.mem_cons_of_mem _ hg1, hkey, hsub⟩

theorem pushMember_adds (gs : List ContactGroup) (rootId : Nat) (c : Contact)
    (h : hasGroup gs rootId = true) :
    ∃ g1 ∈ pushMember gs rootId c, c ∈ g1.contacts := by
  induction gs with
  | nil => simp [hasGroup] at h
  | cons g t ih =>
      unfold pushMember
      by_cases hk : (g.primaryId == rootId) = true
      · simp only [hk, if_true]
        exact ⟨{ g with contacts := g.contacts ++ [c] }, List.mem_cons_self _ _,
          List.mem_append.mpr (Or.inr (List.mem_singleton.mpr rfl))⟩
      · have hk2 : (g.primaryId == rootId) = false := Bool.eq_false_iff.mpr hk
        have ht : hasGroup t rootId = true := by
          unfold hasGroup at h
          simp only [List.any_cons, hk2, Bool.false_or] at h
          exact h
        obtain ⟨g1, hg1, hc⟩ := ih ht
        simp only [hk2, Bool.false_eq_true, if_false]
        exact ⟨g1, List.mem_cons_of_mem _ hg1, hc⟩

theorem groupGo_cover : ∀ (cs : List Contact) (gs0 : List ContactGroup) (s : Store)
    (gs : List ContactGroup) (s2 : Store), groupGo cs gs0 s = (some gs, s2) →
    (∀ g0 ∈ gs0, ∃ g1 ∈ gs,
      g0.primaryId = g1.primaryId ∧ ∀ x ∈ g0.contacts, x ∈ g1.contacts) ∧
    (∀ c ∈ cs, ∃ g1 ∈ gs, c ∈ g1.contacts) := by
  intro cs
  induction cs with
  | nil =>
      intro gs0 s gs s2 h
      simp only [groupGo, Prod.mk.injEq, Option.some.injEq] at h
      obtain ⟨h1, h2⟩ := h
      subst h1
      exact ⟨fun g0 h0 => ⟨g0, h0, rfl, fun x hx => hx⟩, by simp⟩
  | cons c rest ih =>
      intro gs0 s gs s2 h
      cases hr : rootIdOf c with
      | none => simp [groupGo, hr] at h
      | some rootId =>
          by_cases hg : hasGroup gs0 rootId = true
          · have h2 : groupGo rest (pushMember gs0 rootId c) s = (some gs, s2) := by
              simpa [groupGo, hr, hg] using h
            obtain ⟨ext, cov⟩ := ih _ _ _ _ h2
            constructor
            · intro g0 h0
              obtain ⟨g1, hg1, hkey, hsub⟩ := pushMember_extends gs0 rootId c g0 h0
              obtain ⟨g2, hg2, hkey2, hsub2⟩ := ext g1 hg1
              exact ⟨g2, hg2, hkey.trans hkey2, fun x hx => hsub2 x (hsub x hx)⟩
            · intro d hd
              rcases List.mem_cons.mp hd with rfl | hd
              · obtain ⟨g1, hg1, hc⟩ := pushMember_adds gs0 rootId d hg
                obtain ⟨g2, hg2, hkey2, hsub2⟩ := ext g1 hg1
                exact ⟨g2, hg2, hsub2 _ hc⟩
              · exact cov d hd
          · have hgf : hasGroup gs0 rootId = false := Bool.eq_false_iff.mpr hg
            cases hp : c.linkPrecedence with
            | primary =>
                have h2 : groupGo rest (gs0 ++ [⟨rootId, c.createdAt, [c]⟩]) s
                    = (some gs, s2) := by
                  simpa [groupGo, hr, hgf, hp] using h
                obtain ⟨ext, cov⟩ := ih _ _ _ _ h2
                constructor
                · intro g0 h0
                  exact ext g0 (List.mem_append.mpr (Or.inl h0))
                · intro d hd
                  rcases List.mem_cons.mp hd with rfl | hd
                  · obtain ⟨g2, hg2, hkey2, hsub2⟩ := ext ⟨rootId, d.createdAt, [d]⟩
                      (List.mem_append.mpr (Or.inr (List.mem_singleton.mpr rfl)))
                    exact ⟨g2, hg2, hsub2 d (List.mem_singleton.mpr rfl)⟩
                  · exact cov d hd
            | secondary =>
                rcases hb : s.getById rootId with ⟨res, sb⟩
                cases res with
                | none => simp [groupGo, hr, hgf, hp, hb] at h
                | some pc =>
                    have h2 : groupGo rest (gs0 ++ [⟨rootId, pc.createdAt, [c]⟩]) sb
                        = (some gs, s2) := by
                      simpa [groupGo, hr, hgf, hp, hb] using h
                    obtain ⟨ext, cov⟩ := ih _ _ _ _ h2
                    constructor
                    · intro g0 h0
                      exact ext g0 (List.mem_append.mpr (Or.inl h0))
                    · intro d hd
                      rcases List.mem_cons.mp hd with rfl | hd
                      · obtain ⟨g2, hg2, hkey2, hsub2⟩ := ext ⟨rootId, pc.createdAt, [d]⟩
                          (List.mem_append.mpr (Or.inr (List.mem_singleton.mpr rfl)))
                        exact ⟨g2, hg2, hsub2 d (List.mem_singleton.mpr rfl)⟩
                      · exact cov d hd


theorem queryParams_not_both_none (r : IdentifyRequest)
    (hV : (truthy r.email || truthy r.phoneNumber) = true) :
    (((queryParamsOf r).1).isNone && ((queryParamsOf r).2).isNone) = false := by
  rcases Bool.or_eq_true_iff.mp hV with ht | ht
  · cases he : r.email with
    | none => rw [he] at ht; simp [truthy] at ht
    | some e => simp [queryParamsOf, he, he ▸ ht]
  · cases hh : r.phoneNumber with
    | none => rw [hh] at ht; simp [truthy] at ht
    | some p => simp [queryParamsOf, hh, hh ▸ ht]

/-- Membership of a record in the chain rooted at the given id: the root
record itself or any record whose linkedId points at the root. -/
def InChain (s : Store) (rootId : Nat) (c : Contact) : Prop :=
  c ∈ s.table ∧ (c.id = rootId ∨ c.linkedId = some rootId)

/-- Claim C7: no write on no new information.  In the single-chain case, if
some chain member agrees with the request on every truthy field the request
supplies, or every supplied truthy value already appears on some chain
member, then identifyContact performs no store write at all (table, id
counter, clock and write counter unchanged) and merely returns the
consolidated view of that chain. -/
theorem identify_single_chain_no_new_info_no_write
    (r : IdentifyRequest) (s s1 s2 : Store) (M : List Contact) (g : ContactGroup)
    (hV : (truthy r.email || truthy r.phoneNumber) = true)
    (hS : s.sched = [])
    (hF : s.findByEmailOrPhone (queryParamsOf r).1 (queryParamsOf r).2 = (some M, s1))
    (hM : M.isEmpty = false)
    (hG : groupContactsByPrimary M s1 = (some [g], s2))
    (hInfo :
      (∃ c, InChain s g.primaryId c ∧
        (truthy r.email = true → c.email = r.email) ∧
        (truthy r.phoneNumber = true → c.phoneNumber = r.phoneNumber)) ∨
      ((truthy r.email = true →
          ∃ c, InChain s g.primaryId c ∧ c.email = r.email) ∧
       (truthy r.phoneNumber = true →
          ∃ c, InChain s g.primaryId c ∧ c.phoneNumber = r.phoneNumber))) :
    identifyContact r s = buildConsolidatedResponse g.primaryId s2 ∧
    ReadOnly s ((identifyContact r s).2) := by
  have hE : truthy r.email = true → ∃ c, InChain s g.primaryId c ∧ c.email = r.email := by
    rcases hInfo with ⟨c, hc, hce, hcp⟩ | ⟨hE1, hP1⟩
    · exact fun ht => ⟨c, hc, hce ht⟩
    · exact hE1
  have hP : truthy r.phoneNumber = true →
      ∃ c, InChain s g.primaryId c ∧ c.phoneNumber = r.phoneNumber := by
    rcases hInfo with ⟨c, hc, hce, hcp⟩ | ⟨hE1, hP1⟩
    · exact fun ht => ⟨c, hc, hcp ht⟩
    · exact hP1
  have hq := queryParams_not_both_none r hV
  have hFind := findByEmailOrPhone_sched_nil s (queryParamsOf r).1 (queryParamsOf r).2 hS hq
  have hPair : (some (s.table.filter (matchPred (queryParamsOf r).1 (queryParamsOf r).2)),
      { s with reads := s.reads + 1 }) = ((some M, s1) : Option (List Contact) × Store) := by
    rw [← hFind, hF]
  have hMfilter : M = s.table.filter (matchPred (queryParamsOf r).1 (queryParamsOf r).2) := by
    have := congrArg Prod.fst hPair
    simpa using this.symm
  have hS1 : s1 = { s with reads := s.reads + 1 } := by
    have := congrArg Prod.snd hPair
    simpa using this.symm
  have hCover : ∀ c ∈ M, c ∈ g.contacts := by
    intro c hc
    obtain ⟨g1, hg1, hcg⟩ := (groupGo_cover M [] s1 [g] s2 hG).2 c hc
    rw [List.mem_singleton] at hg1
    exact hg1 ▸ hcg
  have hAnyE : truthy r.email = true →
      (g.contacts.any (fun c => c.email == r.email)) = true := by
    intro ht
    obtain ⟨c, ⟨hcT, hrest⟩, hce⟩ := hE ht
    have hcM : c ∈ M := by
      rw [hMfilter]
      refine List.mem_filter.mpr ⟨hcT, ?_⟩
      cases he : r.email with
      | none => rw [he] at ht; simp [truthy] at ht
      | some e =>
          rw [he] at hce
          simp [matchPred, queryParamsOf, he, he ▸ ht, hce]
    exact List.any_eq_true.mpr ⟨c, hCover c hcM, by rw [hce]; exact beq_self_eq_true _⟩
  have hAnyP : truthy r.phoneNumber = true →
      (g.contacts.any (fun c => c.phoneNumber == r.phoneNumber)) = true := by
    intro ht
    obtain ⟨c, ⟨hcT, hrest⟩, hcp⟩ := hP ht
    have hcM : c ∈ M := by
      rw [hMfilter]
      refine List.mem_filter.mpr ⟨hcT, ?_⟩
      cases hh : r.phoneNumber with
      | none => rw [hh] at ht; simp [truthy] at ht
      | some p =>
          rw [hh] at hcp
          simp [matchPred, queryParamsOf, hh, hh ▸ ht, hcp]
    exact List.any_eq_true.mpr ⟨c, hCover c hcM, by rw [hcp]; exact beq_self_eq_true _⟩
  have hSC : shouldCreateSecondaryContact r g.contacts = false := by
    rw [shouldCreate_eq]
    cases hte : truthy r.email
    · cases htp : truthy r.phoneNumber
      · simp
      · simp [hAnyP htp]
    · cases htp : truthy r.phoneNumber
      · simp [hAnyE hte]
      · simp [hAnyE hte, hAnyP htp]
  have hV2 : (!(truthy r.email) && !(truthy r.phoneNumber)) = false := by
    rw [← Bool.not_or, hV]
    rfl
  have heq : identifyContact r s = buildConsolidatedResponse g.primaryId s2 := by
    simp only [identifyContact, hV2, Bool.false_eq_true, if_false, hFind, ← hMfilter,
      ← hS1, hM, hG, hSC, List.length_cons, List.length_nil, Nat.reduceBEq]
    simp [hSC]
  refine ⟨heq, ?_⟩
  rw [heq]
  have ro1 : ReadOnly s s1 := by
    rw [hS1]
    exact ⟨rfl, rfl, rfl, rfl⟩
  have ro2 : ReadOnly s1 s2 := by
    have := groupGo_readOnly M [] s1
    rw [show groupGo M [] s1 = (some [g], s2) from hG] at this
    exact this
  exact readOnly_trans (readOnly_trans ro1 ro2) (buildConsolidatedResponse_readOnly _ _)


def wQ0 : Contact := ⟨0, some "a", some "1", none, .primary, 0, 0⟩

def wQ1 : Contact := ⟨1, some "b", some "1", some 0, .secondary, 1, 1⟩

def wStore7 : Store := ⟨[wQ0, wQ1], 2, 2, [], 0, 0, 0⟩

/-- Claim C7 witness: a chain of primary 0 and secondary 1 queried with the
exact email and phone of the primary; nothing is written. -/
theorem identify_single_chain_no_new_info_no_write_witness :
    identifyContact ⟨some "a", some "1"⟩ wStore7
        = buildConsolidatedResponse 0 { wStore7 with reads := 1 } ∧
    ReadOnly wStore7 ((identifyContact ⟨some "a", some "1"⟩ wStore7).2) :=
  identify_single_chain_no_new_info_no_write ⟨some "a", some "1"⟩ wStore7
    { wStore7 with reads := 1 } { wStore7 with reads := 1 }
    [wQ0, wQ1] ⟨0, 0, [wQ0, wQ1]⟩
    (by decide) rfl (by decide) (by decide) (by decide)
    (Or.inl ⟨wQ0, ⟨by decide, Or.inl rfl⟩, fun _ => rfl, fun _ => rfl⟩)


theorem lookup_table_eq {s s2 : Store} (h : s2.table = s.table) (x : Nat) :
    lookup s2 x = lookup s x := by
  unfold lookup
  rw [h]

theorem mem_of_lookup {s : Store} {x : Nat} {e : Contact} (h : lookup s x = some e) :
    e ∈ s.table :=
  List.mem_of_find?_eq_some h

theorem nodup_id_eq {s : Store} {a b : Contact} (hIds : (s.table.map Contact.id).Nodup)
    (ha : a ∈ s.table) (hb : b ∈ s.table) (h : a.id = b.id) : a = b :=
  List.inj_on_of_nodup_map hIds ha hb h

theorem applyUpdate_other {id : Nat} {e : Contact} (li : Option Nat)
    (lp : Option LinkPrecedence) (t : Nat) (hne : e.id ≠ id) :
    applyUpdate id li lp t e = e := by
  unfold applyUpdate
  have : (e.id == id) = false := by simpa using hne
  simp [this]

theorem lookup_repoint_foldl_untouched {o x : Nat} (cs : List Contact) :
    ∀ s : Store, s.sched = [] →
      (∀ c ∈ cs, c.linkPrecedence = LinkPrecedence.secondary → c.id ≠ x) →
      lookup (cs.foldl (repointStep o) s) x = lookup s x := by
  induction cs with
  | nil => intro s _ _; rfl
  | cons c rest ih =>
      intro s hS hno
      have hstep : lookup (repointStep o s c) x = lookup s x := by
        rw [lookup_repointStep o s c hS]
        by_cases hc : (c.linkPrecedence == LinkPrecedence.secondary) = true
        · simp only [hc, if_true]
          cases hl : lookup s x with
          | none => rfl
          | some e =>
              have hex : e.id ≠ c.id := by
                rw [lookup_id hl]
                intro hx
                exact hno c (List.mem_cons_self _ _) (by simpa using hc) hx.symm
              simp [applyUpdate_other _ _ _ hex]
        · have hc2 : (c.linkPrecedence == LinkPrecedence.secondary) = false :=
            Bool.eq_false_iff.mpr hc
          simp [hc2]
      rw [List.foldl_cons, ih _ (repointStep_sched_nil hS)
        (fun d hd => hno d (List.mem_cons_of_mem _ hd)), hstep]

theorem create_sched_nil {s : Store} (em ph : Option String) (li : Option Nat)
    (lp : LinkPrecedence) (h : s.sched = []) : ((s.create em ph li lp).2).sched = [] := by
  simp [Store.create, Store.opFail, h]

theorem createSecondaryContact_sched_nil {s : Store} (r : IdentifyRequest) (pid : Nat)
    (h : s.sched = []) : (createSecondaryContact r pid s).sched = [] :=
  create_sched_nil _ _ _ _ h

theorem getById_sched_nil {s : Store} (id : Nat) (h : s.sched = []) :
    ((s.getById id).2).sched = [] := by
  simp [Store.getById, Store.opFail, h]

theorem groupGo_sched_nil : ∀ (cs : List Contact) (gs : List ContactGroup) (s : Store),
    s.sched = [] → ((groupGo cs gs s).2).sched = [] := by
  intro cs
  induction cs with
  | nil => intro gs s h; exact h
  | cons c rest ih =>
      intro gs s h
      cases hr : rootIdOf c with
      | none => simp [groupGo, hr]; exact h
      | some rootId =>
          by_cases hg : hasGroup gs rootId
          · simp [groupGo, hr, hg]
            exact ih _ s h
          · cases hp : c.linkPrecedence with
            | primary =>
                simp [groupGo, hr, hg, hp]
                exact ih _ s h
            | secondary =>
                rcases hb : s.getById rootId with ⟨res, s1⟩
                have h1 : s1.sched = [] := by
                  have := getById_sched_nil rootId h
                  rw [hb] at this
                  exact this
                cases res with
                | none => simp [groupGo, hr, hg, hp, hb]; exact h1
                | some pc =>
                    simp [groupGo, hr, hg, hp, hb]
                    exact ih _ s1 h1

theorem getById_sched_nil_eq {t : Store} {pid : Nat} (hS : t.sched = []) :
    t.getById pid = (lookup t pid, { t with reads := t.reads + 1 }) := by
  unfold Store.getById
  simp [Store.opFail, hS, lookup]

theorem getLinkedContacts_sched_nil {t : Store} {pid : Nat} {pc : Contact}
    (hS : t.sched = []) (hL : lookup t pid = some pc) :
    t.getLinkedContacts pid
      = (some (pc :: t.table.filter (fun c => c.linkedId == some pid)),
         { t with reads := t.reads + 1 + 1 }) := by
  unfold Store.getLinkedContacts
  rw [getById_sched_nil_eq hS, hL]
  simp [Store.opFail, hS]

theorem build_success (pid : Nat) (t : Store) (pc : Contact)
    (hS : t.sched = []) (hL : lookup t pid = some pc)
    (hP : pc.linkPrecedence = LinkPrecedence.primary) :
    (buildConsolidatedResponse pid t).1.success = true ∧
    ((buildConsolidatedResponse pid t).1.data).map ConsolidatedContact.primaryContactId
      = some pc.id := by
  have hfind : (pc :: t.table.filter (fun c => c.linkedId == some pid)).find?
      (fun c => c.linkPrecedence == LinkPrecedence.primary) = some pc :=
    List.find?_cons_of_pos _ (by simp [hP])
  unfold buildConsolidatedResponse
  simp only [getLinkedContacts_sched_nil hS hL, hfind]
  simp


theorem lookup_mapped_store (s s2 : Store) (id2 : Nat) (li : Option Nat)
    (lp : Option LinkPrecedence) (t x : Nat)
    (hT : s2.table = s.table.map (applyUpdate id2 li lp t)) :
    lookup s2 x = (lookup s x).map (applyUpdate id2 li lp t) := by
  unfold lookup
  rw [hT, find?_id_map_applyUpdate]

theorem linkTwo_merge_spec (older newer : ContactGroup) (r : IdentifyRequest) (s : Store)
    (oc nc : Contact)
    (hlt : older.createdAt < newer.createdAt)
    (hS : s.sched = [])
    (hOld : lookup s older.primaryId = some oc)
    (hOcP : oc.linkPrecedence = LinkPrecedence.primary)
    (hNew : lookup s newer.primaryId = some nc)
    (hNcP : nc.linkPrecedence = LinkPrecedence.primary)
    (hRoots : older.primaryId ≠ newer.primaryId)
    (hIds : (s.table.map Contact.id).Nodup)
    (hSubN : ∀ c ∈ newer.contacts, c ∈ s.table) :
    (linkTwoPrimaryContacts [older, newer] r s).1.success = true ∧
    ((linkTwoPrimaryContacts [older, newer] r s).1.data).map
        ConsolidatedContact.primaryContactId = some older.primaryId ∧
    lookup ((linkTwoPrimaryContacts [older, newer] r s).2) newer.primaryId
      = some { nc with
          linkedId := some older.primaryId
          linkPrecedence := LinkPrecedence.secondary
          updatedAt := s.now } ∧
    lookup ((linkTwoPrimaryContacts [older, newer] r s).2) older.primaryId = some oc := by
  have hu := update_sched_nil s newer.primaryId (some older.primaryId) (some .secondary) hS
  have hocid : oc.id = older.primaryId := lookup_id hOld
  have hncid : nc.id = newer.primaryId := lookup_id hNew
  simp only [linkTwoPrimaryContacts, if_pos hlt, hu]
  set s1 : Store := { s with
      table := s.table.map (applyUpdate newer.primaryId (some older.primaryId)
        (some LinkPrecedence.secondary) s.now),
      now := s.now + 1,
      writes := s.writes + 1 } with hs1def
  have hS1 : s1.sched = [] := hS
  have hL1new : lookup s1 newer.primaryId
      = some { nc with
          linkedId := some older.primaryId
          linkPrecedence := LinkPrecedence.secondary
          updatedAt := s.now } := by
    rw [lookup_mapped_store s s1 newer.primaryId (some older.primaryId)
      (some LinkPrecedence.secondary) s.now newer.primaryId rfl, hNew]
    have hb : (nc.id == newer.primaryId) = true := by simp [hncid]
    simp [applyUpdate, hb]
  have hL1old : lookup s1 older.primaryId = some oc := by
    rw [lookup_mapped_store s s1 newer.primaryId (some older.primaryId)
      (some LinkPrecedence.secondary) s.now older.primaryId rfl, hOld]
    have hne : oc.id ≠ newer.primaryId := by
      rw [hocid]
      exact hRoots
    simp [applyUpdate_other _ _ _ hne]
  have hNoTouchNew : ∀ c ∈ newer.contacts,
      c.linkPrecedence = LinkPrecedence.secondary → c.id ≠ newer.primaryId := by
    intro c hc hsec heq2
    have hc2 : c = nc := nodup_id_eq hIds (hSubN c hc) (mem_of_lookup hNew)
      (by rw [heq2, hncid])
    rw [hc2, hNcP] at hsec
    cases hsec
  have hNoTouchOld : ∀ c ∈ newer.contacts,
      c.linkPrecedence = LinkPrecedence.secondary → c.id ≠ older.primaryId := by
    intro c hc hsec heq2
    have hc2 : c = oc := nodup_id_eq hIds (hSubN c hc) (mem_of_lookup hOld)
      (by rw [heq2, hocid])
    rw [hc2, hOcP] at hsec
    cases hsec
  have hFnew : lookup (newer.contacts.foldl (repointStep older.primaryId) s1) newer.primaryId
      = some { nc with
          linkedId := some older.primaryId
          linkPrecedence := LinkPrecedence.secondary
          updatedAt := s.now } := by
    rw [lookup_repoint_foldl_untouched newer.contacts s1 hS1 hNoTouchNew, hL1new]
  have hFold : lookup (newer.contacts.foldl (repointStep older.primaryId) s1) older.primaryId
      = some oc := by
    rw [lookup_repoint_foldl_untouched newer.contacts s1 hS1 hNoTouchOld, hL1old]
  have hFsched : (newer.contacts.foldl (repointStep older.primaryId) s1).sched = [] :=
    repoint_foldl_sched_nil newer.contacts s1 hS1
  have main : ∀ t : Store, t.sched = [] →
      lookup t newer.primaryId
        = some { nc with
            linkedId := some older.primaryId
            linkPrecedence := LinkPrecedence.secondary
            updatedAt := s.now } →
      lookup t older.primaryId = some oc →
      (buildConsolidatedResponse older.primaryId t).1.success = true ∧
      ((buildConsolidatedResponse older.primaryId t).1.data).map
          ConsolidatedContact.primaryContactId = some older.primaryId ∧
      lookup ((buildConsolidatedResponse older.primaryId t).2) newer.primaryId
        = some { nc with
            linkedId := some older.primaryId
            linkPrecedence := LinkPrecedence.secondary
            updatedAt := s.now } ∧
      lookup ((buildConsolidatedResponse older.primaryId t).2) older.primaryId = some oc := by
    intro t ht htn hto
    obtain ⟨hb1, hb2⟩ := build_success older.primaryId t oc ht hto hOcP
    refine ⟨hb1, ?_, ?_, ?_⟩
    · rw [hb2, hocid]
    · rw [lookup_table_eq (buildConsolidatedResponse_table older.primaryId t) _]
      exact htn
    · rw [lookup_table_eq (buildConsolidatedResponse_table older.primaryId t) _]
      exact hto
  by_cases hsc : shouldCreateSecondaryContact r (older.contacts ++ newer.contacts) = true
  · simp only [hsc, if_true]
    exact main _ (createSecondaryContact_sched_nil r older.primaryId hFsched)
      (lookup_create _ _ _ _ hFnew) (lookup_create _ _ _ _ hFold)
  · have hsc2 : shouldCreateSecondaryContact r (older.contacts ++ newer.contacts) = false :=
      Bool.eq_false_iff.mpr hsc
    simp only [hsc2, Bool.false_eq_true, if_false]
    exact main _ hFsched hFnew hFold


theorem pushMember_members (gs : List ContactGroup) (rootId : Nat) (c : Contact) :
    ∀ g1 ∈ pushMember gs rootId c, ∀ x ∈ g1.contacts,
      (∃ g0 ∈ gs, x ∈ g0.contacts) ∨ x = c := by
  induction gs with
  | nil => intro g1 h; cases h
  | cons g t ih =>
      intro g1 h1 x hx
      unfold pushMember at h1
      by_cases hk : (g.primaryId == rootId) = true
      · simp only [hk, if_true] at h1
        rcases List.mem_cons.mp h1 with rfl | h1
        · rcases List.mem_append.mp hx with hx2 | hx2
          · exact Or.inl ⟨g, List.mem_cons_self _ _, hx2⟩
          · exact Or.inr (List.mem_singleton.mp hx2)
        · exact Or.inl ⟨g1, List.mem_cons_of_mem _ h1, hx⟩
      · have hk2 : (g.primaryId == rootId) = false := Bool.eq_false_iff.mpr hk
        simp only [hk2, Bool.false_eq_true, if_false] at h1
        rcases List.mem_cons.mp h1 with rfl | h1
        · exact Or.inl ⟨g1, List.mem_cons_self _ _, hx⟩
        · rcases ih g1 h1 x hx with ⟨g0, hg0, hx0⟩ | hx0
          · exact Or.inl ⟨g0, List.mem_cons_of_mem _ hg0, hx0⟩
          · exact Or.inr hx0

theorem groupGo_members : ∀ (cs : List Contact) (gs0 : List ContactGroup) (s : Store)
    (gs : List ContactGroup) (s2 : Store), groupGo cs gs0 s = (some gs, s2) →
    ∀ g1 ∈ gs, ∀ x ∈ g1.contacts, (∃ g0 ∈ gs0, x ∈ g0.contacts) ∨ x ∈ cs := by
  intro cs
  induction cs with
  | nil =>
      intro gs0 s gs s2 h g1 hg1 x hx
      simp only [groupGo, Prod.mk.injEq, Option.some.injEq] at h
      obtain ⟨h1, h2⟩ := h
      subst h1
      exact Or.inl ⟨g1, hg1, hx⟩
  | cons c rest ih =>
      intro gs0 s gs s2 h g1 hg1 x hx
      cases hr : rootIdOf c with
      | none => simp [groupGo, hr] at h
      | some rootId =>
          by_cases hg : hasGroup gs0 rootId = true
          · have h2 : groupGo rest (pushMember gs0 rootId c) s = (some gs, s2) := by
              simpa [groupGo, hr, hg] using h
            rcases ih _ _ _ _ h2 g1 hg1 x hx with ⟨g0, hg0, hx0⟩ | hx0
            · rcases pushMember_members gs0 rootId c g0 hg0 x hx0 with ⟨g3, hg3, hx3⟩ | hx3
              · exact Or.inl ⟨g3, hg3, hx3⟩
              · exact Or.inr (hx3 ▸ List.mem_cons_self _ _)
            · exact Or.inr (List.mem_cons_of_mem _ hx0)
          · have hgf : hasGroup gs0 rootId = false := Bool.eq_false_iff.mpr hg
            cases hp : c.linkPrecedence with
            | primary =>
                have h2 : groupGo rest (gs0 ++ [⟨rootId, c.createdAt, [c]⟩]) s
                    = (some gs, s2) := by
                  simpa [groupGo, hr, hgf, hp] using h
                rcases ih _ _ _ _ h2 g1 hg1 x hx with ⟨g0, hg0, hx0⟩ | hx0
                · rcases List.mem_append.mp hg0 with hg3 | hg3
                  · exact Or.inl ⟨g0, hg3, hx0⟩
                  · rw [List.mem_singleton] at hg3
                    subst hg3
                    rw [List.mem_singleton.mp hx0]
                    exact Or.inr (List.mem_cons_self _ _)
                · exact Or.inr (List.mem_cons_of_mem _ hx0)
            | secondary =>
                rcases hb : s.getById rootId with ⟨res, sb⟩
                cases res with
                | none => simp [groupGo, hr, hgf, hp, hb] at h
                | some pc =>
                    have h2 : groupGo rest (gs0 ++ [⟨rootId, pc.createdAt, [c]⟩]) sb
                        = (some gs, s2) := by
                      simpa [groupGo, hr, hgf, hp, hb] using h
                    rcases ih _ _ _ _ h2 g1 hg1 x hx with ⟨g0, hg0, hx0⟩ | hx0
                    · rcases List.mem_append.mp hg0 with hg3 | hg3
                      · exact Or.inl ⟨g0, hg3, hx0⟩
                      · rw [List.mem_singleton] at hg3
                        subst hg3
                        rw [List.mem_singleton.mp hx0]
                        exact Or.inr (List.mem_cons_self _ _)
                    · exact Or.inr (List.mem_cons_of_mem _ hx0)

theorem linkTwo_swap (gA gB : ContactGroup) (r : IdentifyRequest) (s : Store)
    (h : ¬(gA.createdAt < gB.createdAt)) (h2 : gB.createdAt < gA.createdAt) :
    linkTwoPrimaryContacts [gA, gB] r s = linkTwoPrimaryContacts [gB, gA] r s := by
  simp only [linkTwoPrimaryContacts, if_neg h, if_pos h2]


/-- Claim C3: two-chain merge keeps the older root primary.  When the
matched records form exactly two chains with distinct root creation times,
the call succeeds, the response primaryContactId is the root id of the chain
created strictly earlier, and the newer root record ends up stored with
linkPrecedence secondary, linkedId equal to the older root id, and a
strictly refreshed updatedAt, while the older root stays primary. -/
theorem identify_two_chains_older_wins
    (r : IdentifyRequest) (s s1 s2 : Store) (M : List Contact)
    (g1 g2 : ContactGroup) (oc nc : Contact)
    (hV : (truthy r.email || truthy r.phoneNumber) = true)
    (hS : s.sched = [])
    (hF : s.findByEmailOrPhone (queryParamsOf r).1 (queryParamsOf r).2 = (some M, s1))
    (hM : M.isEmpty = false)
    (hG : groupContactsByPrimary M s1 = (some [g1, g2], s2))
    (hNe : g1.createdAt ≠ g2.createdAt)
    (hRoots : g1.primaryId ≠ g2.primaryId)
    (hIds : (s.table.map Contact.id).Nodup)
    (hOld : lookup s (if g1.createdAt < g2.createdAt then g1 else g2).primaryId = some oc)
    (hOcP : oc.linkPrecedence = LinkPrecedence.primary)
    (hNew : lookup s (if g1.createdAt < g2.createdAt then g2 else g1).primaryId = some nc)
    (hNcP : nc.linkPrecedence = LinkPrecedence.primary)
    (hNcU : nc.updatedAt < s.now) :
    (identifyContact r s).1.success = true ∧
    ((identifyContact r s).1.data).map ConsolidatedContact.primaryContactId
      = some (if g1.createdAt < g2.createdAt then g1 else g2).primaryId ∧
    (if g1.createdAt < g2.createdAt then g1 else g2).createdAt
      < (if g1.createdAt < g2.createdAt then g2 else g1).createdAt ∧
    (∃ nc2, lookup ((identifyContact r s).2)
        (if g1.createdAt < g2.createdAt then g2 else g1).primaryId = some nc2 ∧
      nc2.linkPrecedence = LinkPrecedence.secondary ∧
      nc2.linkedId = some (if g1.createdAt < g2.createdAt then g1 else g2).primaryId ∧
      nc.updatedAt < nc2.updatedAt) ∧
    (∃ oc2, lookup ((identifyContact r s).2)
        (if g1.createdAt < g2.createdAt then g1 else g2).primaryId = some oc2 ∧
      oc2.linkPrecedence = LinkPrecedence.primary) := by
  have hq := queryParams_not_both_none r hV
  have hFind := findByEmailOrPhone_sched_nil s (queryParamsOf r).1 (queryParamsOf r).2 hS hq
  have hPair : (some (s.table.filter (matchPred (queryParamsOf r).1 (queryParamsOf r).2)),
      { s with reads := s.reads + 1 }) = ((some M, s1) : Option (List Contact) × Store) := by
    rw [← hFind, hF]
  have hMfilter : M = s.table.filter (matchPred (queryParamsOf r).1 (queryParamsOf r).2) := by
    have := congrArg Prod.fst hPair
    simpa using this.symm
  have hS1 : s1 = { s with reads := s.reads + 1 } := by
    have := congrArg Prod.snd hPair
    simpa using this.symm
  have hV2 : (!(truthy r.email) && !(truthy r.phoneNumber)) = false := by
    rw [← Bool.not_or, hV]
    rfl
  have hl1 : (([g1, g2] : List ContactGroup).length == 1) = false := rfl
  have hl2 : (([g1, g2] : List ContactGroup).length == 2) = true := rfl
  have heq : identifyContact r s = linkTwoPrimaryContacts [g1, g2] r s2 := by
    simp only [identifyContact, hV2, Bool.false_eq_true, if_false, hFind, ← hMfilter,
      ← hS1, hM, hG, hl1, hl2, if_true]
  have ro1 : ReadOnly s s1 := by
    rw [hS1]
    exact ⟨rfl, rfl, rfl, rfl⟩
  have ro2 : ReadOnly s1 s2 := by
    have := groupGo_readOnly M [] s1
    rw [show groupGo M [] s1 = (some [g1, g2], s2) from hG] at this
    exact this
  have ro12 : ReadOnly s s2 := readOnly_trans ro1 ro2
  have hs2T : s2.table = s.table := ro12.1
  have hs2now : s2.now = s.now := ro12.2.2.1
  have hs2sch : s2.sched = [] := by
    have h1 : s1.sched = [] := by
      rw [hS1]
      exact hS
    have := groupGo_sched_nil M [] s1 h1
    rw [show groupGo M [] s1 = (some [g1, g2], s2) from hG] at this
    exact this
  have hIds2 : (s2.table.map Contact.id).Nodup := by
    rw [hs2T]
    exact hIds
  have hSubM : ∀ g ∈ [g1, g2], ∀ x ∈ g.contacts, x ∈ s2.table := by
    intro g hg x hx
    rcases groupGo_members M [] s1 [g1, g2] s2 hG g hg x hx with ⟨g0, hg0, hx0⟩ | hxM
    · cases hg0
    · rw [hs2T, hMfilter] at *
      exact List.mem_of_mem_filter (hMfilter ▸ hxM)
  by_cases hlt : g1.createdAt < g2.createdAt
  · simp only [if_pos hlt] at hOld hNew ⊢
    have hOld2 : lookup s2 g1.primaryId = some oc := by
      rw [lookup_table_eq hs2T]
      exact hOld
    have hNew2 : lookup s2 g2.primaryId = some nc := by
      rw [lookup_table_eq hs2T]
      exact hNew
    have spec := linkTwo_merge_spec g1 g2 r s2 oc nc hlt hs2sch hOld2 hOcP hNew2 hNcP
      hRoots hIds2 (fun c hc => hSubM g2 (by simp) c hc)
    refine ⟨by rw [heq]; exact spec.1, by rw [heq]; exact spec.2.1, hlt, ?_, ?_⟩
    · refine ⟨_, by rw [heq]; exact spec.2.2.1, rfl, rfl, ?_⟩
      show nc.updatedAt < s2.now
      rw [hs2now]
      exact hNcU
    · exact ⟨oc, by rw [heq]; exact spec.2.2.2, hOcP⟩
  · have hlt2 : g2.createdAt < g1.createdAt :=
      Nat.lt_of_le_of_ne (Nat.le_of_not_lt hlt) (fun h => hNe h.symm)
    simp only [if_neg hlt] at hOld hNew ⊢
    have hOld2 : lookup s2 g2.primaryId = some oc := by
      rw [lookup_table_eq hs2T]
      exact hOld
    have hNew2 : lookup s2 g1.primaryId = some nc := by
      rw [lookup_table_eq hs2T]
      exact hNew
    have spec := linkTwo_merge_spec g2 g1 r s2 oc nc hlt2 hs2sch hOld2 hOcP hNew2 hNcP
      (fun h => hRoots h.symm) hIds2 (fun c hc => hSubM g1 (by simp) c hc)
    have heq2 : identifyContact r s = linkTwoPrimaryContacts [g2, g1] r s2 := by
      rw [heq, linkTwo_swap g1 g2 r s2 hlt hlt2]
    refine ⟨by rw [heq2]; exact spec.1, by rw [heq2]; exact spec.2.1, hlt2, ?_, ?_⟩
    · refine ⟨_, by rw [heq2]; exact spec.2.2.1, rfl, rfl, ?_⟩
      show nc.updatedAt < s2.now
      rw [hs2now]
      exact hNcU
    · exact ⟨oc, by rw [heq2]; exact spec.2.2.2, hOcP⟩


def wR0 : Contact := ⟨0, some "g@h.edu", some "919191", none, .primary, 0, 0⟩

def wR1 : Contact := ⟨1, some "b@h.edu", some "717171", none, .primary, 1, 1⟩

def wStore3 : Store := ⟨[wR0, wR1], 2, 2, [], 0, 0, 0⟩

/-- Claim C3 witness: the scenario of the spec test, two primaries g@h.edu
with phone 919191 and b@h.edu with phone 717171, queried with the older email
and the newer phone. -/
theorem identify_two_chains_older_wins_witness :
    (identifyContact ⟨some "g@h.edu", some "717171"⟩ wStore3).1.success = true ∧
    ((identifyContact ⟨some "g@h.edu", some "717171"⟩ wStore3).1.data).map
        ConsolidatedContact.primaryContactId = some 0 ∧
    (0 : Nat) < 1 ∧
    (∃ nc2, lookup ((identifyContact ⟨some "g@h.edu", some "717171"⟩ wStore3).2) 1
        = some nc2 ∧
      nc2.linkPrecedence = LinkPrecedence.secondary ∧
      nc2.linkedId = some 0 ∧ (1 : Nat) < nc2.updatedAt) ∧
    (∃ oc2, lookup ((identifyContact ⟨some "g@h.edu", some "717171"⟩ wStore3).2) 0
        = some oc2 ∧
      oc2.linkPrecedence = LinkPrecedence.primary) :=
  identify_two_chains_older_wins ⟨some "g@h.edu", some "717171"⟩ wStore3
    { wStore3 with reads := 1 } { wStore3 with reads := 1 } [wR0, wR1]
    ⟨0, 0, [wR0]⟩ ⟨1, 1, [wR1]⟩ wR0 wR1
    (by decide) rfl (by decide) (by decide) (by decide) (by decide) (by decide)
    (by decide) (by decide) rfl (by decide) rfl (by decide)


theorem findByEmailOrPhone_fail {s : Store} {rest : List Bool} (qe qp : Option String)
    (hq : (qe.isNone && qp.isNone) = false) (hsch : s.sched = true :: rest) :
    s.findByEmailOrPhone qe qp
      = (none, { s with
          sched := rest
          failures := s.failures + 1
          reads := s.reads + 1 }) := by
  unfold Store.findByEmailOrPhone
  simp [hq, Store.opFail, hsch]

theorem update_fail {s : Store} {rest : List Bool} (id : Nat) (li : Option Nat)
    (lp : Option LinkPrecedence) (hsch : s.sched = true :: rest) :
    s.update id li lp
      = (false, { s with
          sched := rest
          failures := s.failures + 1
          writes := s.writes + 1 }) := by
  unfold Store.update
  simp [Store.opFail, hsch]

theorem getById_fail {s : Store} {rest : List Bool} (id : Nat)
    (hsch : s.sched = true :: rest) :
    s.getById id
      = (none, { s with
          sched := rest
          failures := s.failures + 1
          reads := s.reads + 1 }) := by
  unfold Store.getById
  simp [Store.opFail, hsch]

theorem getLinkedContacts_fail {s : Store} {rest : List Bool} (pid : Nat)
    (hsch : s.sched = true :: rest) :
    s.getLinkedContacts pid
      = (none, { s with
          sched := rest
          failures := s.failures + 1
          reads := s.reads + 1 }) := by
  unfold Store.getLinkedContacts
  rw [getById_fail pid hsch]

theorem build_fail {s : Store} {rest : List Bool} (pid : Nat)
    (hsch : s.sched = true :: rest) :
    (buildConsolidatedResponse pid s).1.success = false := by
  unfold buildConsolidatedResponse
  rw [getLinkedContacts_fail pid hsch]

/-- Claim C5 (amended): failures of the matching read, of the demotion
update in the two-chain merge, of the consolidating read, and of a
chain-root fetch during grouping (the thrown dereference reaches the top
catch) are surfaced to the caller as a failed result.  A failure of the
secondary-contact create is not surfaced, as the counterexample shows. -/
theorem identify_store_failures_surfaced :
    (∀ (r : IdentifyRequest) (s : Store) (rest : List Bool),
      (truthy r.email || truthy r.phoneNumber) = true →
      s.sched = true :: rest →
      (identifyContact r s).1.success = false) ∧
    (∀ (r : IdentifyRequest) (s s1 s2 : Store) (M : List Contact)
        (g1 g2 : ContactGroup) (rest : List Bool),
      (truthy r.email || truthy r.phoneNumber) = true →
      s.findByEmailOrPhone (queryParamsOf r).1 (queryParamsOf r).2 = (some M, s1) →
      M.isEmpty = false →
      groupContactsByPrimary M s1 = (some [g1, g2], s2) →
      s2.sched = true :: rest →
      (identifyContact r s).1.success = false) ∧
    (∀ (r : IdentifyRequest) (s s1 s2 : Store) (M : List Contact)
        (g : ContactGroup) (rest : List Bool),
      (truthy r.email || truthy r.phoneNumber) = true →
      s.findByEmailOrPhone (queryParamsOf r).1 (queryParamsOf r).2 = (some M, s1) →
      M.isEmpty = false →
      groupContactsByPrimary M s1 = (some [g], s2) →
      shouldCreateSecondaryContact r g.contacts = false →
      s2.sched = true :: rest →
      (identifyContact r s).1.success = false) ∧
    (∀ (r : IdentifyRequest) (s s1 : Store) (c : Contact) (cs : List Contact)
        (rid : Nat) (rest : List Bool),
      (truthy r.email || truthy r.phoneNumber) = true →
      s.findByEmailOrPhone (queryParamsOf r).1 (queryParamsOf r).2 = (some (c :: cs), s1) →
      c.linkPrecedence = LinkPrecedence.secondary →
      c.linkedId = some rid →
      s1.sched = true :: rest →
      (identifyContact r s).1.success = false) := by
  refine ⟨?_, ?_, ?_, ?_⟩
  · intro r s rest hV hsch
    have hV2 : (!(truthy r.email) && !(truthy r.phoneNumber)) = false := by
      rw [← Bool.not_or, hV]
      rfl
    have hq := queryParams_not_both_none r hV
    have hfail := findByEmailOrPhone_fail (queryParamsOf r).1 (queryParamsOf r).2 hq hsch
    simp [identifyContact, hV2, hfail]
  · intro r s s1 s2 M g1 g2 rest hV hF hM hG hsch
    have hV2 : (!(truthy r.email) && !(truthy r.phoneNumber)) = false := by
      rw [← Bool.not_or, hV]
      rfl
    have hl1 : (([g1, g2] : List ContactGroup).length == 1) = false := rfl
    have hl2 : (([g1, g2] : List ContactGroup).length == 2) = true := rfl
    have heq : identifyContact r s = linkTwoPrimaryContacts [g1, g2] r s2 := by
      simp only [identifyContact, hV2, Bool.false_eq_true, if_false, hF, hM, hG,
        hl1, hl2, if_true]
    rw [heq]
    by_cases hlt : g1.createdAt < g2.createdAt
    · simp only [linkTwoPrimaryContacts, if_pos hlt,
        update_fail g2.primaryId (some g1.primaryId) (some LinkPrecedence.secondary) hsch]
    · simp only [linkTwoPrimaryContacts, if_neg hlt,
        update_fail g1.primaryId (some g2.primaryId) (some LinkPrecedence.secondary) hsch]
  · intro r s s1 s2 M g rest hV hF hM hG hSC hsch
    have hV2 : (!(truthy r.email) && !(truthy r.phoneNumber)) = false := by
      rw [← Bool.not_or, hV]
      rfl
    have hl1 : (([g] : List ContactGroup).length == 1) = true := rfl
    have heq : identifyContact r s = buildConsolidatedResponse g.primaryId s2 := by
      simp only [identifyContact, hV2, Bool.false_eq_true, if_false, hF, hM, hG,
        hl1, if_true, hSC]
    rw [heq]
    exact build_fail g.primaryId hsch
  · intro r s s1 c cs rid rest hV hF hsec hlid hsch
    have hV2 : (!(truthy r.email) && !(truthy r.phoneNumber)) = false := by
      rw [← Bool.not_or, hV]
      rfl
    have hgb := getById_fail rid hsch
    have hgroup : groupContactsByPrimary (c :: cs) s1
        = (none, { s1 with
            sched := rest
            failures := s1.failures + 1
            reads := s1.reads + 1 }) := by
      unfold groupContactsByPrimary
      simp [groupGo, rootIdOf, hsec, hlid, hasGroup, hgb]
    simp [identifyContact, hV2, hF, hgroup]

/-- Store with one primary and a failure schedule that fails the second
operation, so the matching read succeeds and the following write fails. -/
def wStore5 : Store :=
  ⟨[⟨0, some "a", some "1", none, .primary, 0, 0⟩], 1, 1, [false, true], 0, 0, 0⟩

/-- Claim C5 counterexample: with the schedule of `wStore5` the secondary
create triggered by the new email fails (the failure counter reaches 1 and
no row is written), yet identifyContact still reports success — the write
failure is silently swallowed by `createSecondaryContact`. -/
theorem create_failure_swallowed :
    (identifyContact ⟨some "b", some "1"⟩ wStore5).1.success = true ∧
    ((identifyContact ⟨some "b", some "1"⟩ wStore5).2).failures = 1 ∧
    ((identifyContact ⟨some "b", some "1"⟩ wStore5).2).writes = 1 ∧
    ((identifyContact ⟨some "b", some "1"⟩ wStore5).2).table = wStore5.table := by
  decide

/-- Claim C5 witness: the matching-read conjunct applied to a store whose
first operation fails. -/
theorem identify_store_failures_surfaced_witness :
    (identifyContact ⟨some "a", none⟩
      (⟨[], 0, 0, [true], 0, 0, 0⟩ : Store)).1.success = false :=
  identify_store_failures_surfaced.1 ⟨some "a", none⟩ ⟨[], 0, 0, [true], 0, 0, 0⟩ []
    (by decide) rfl


/-- Fold a list of strings into an accumulator keeping only first
occurrences (exact, case-sensitive comparison). -/
def dedupInto (acc : List String) (l : List String) : List String :=
  l.foldl (fun a e => if a.contains e then a else a ++ [e]) acc

/-- Deduplicate a list of strings, first occurrence wins, case-sensitive. -/
def dedupFirst (l : List String) : List String :=
  dedupInto [] l

def emailsOf : List Contact → List String
  | [] => []
  | c :: t => (if truthy c.email then c.email.toList else []) ++ emailsOf t

def phonesOf : List Contact → List String
  | [] => []
  | c :: t => (if truthy c.phoneNumber then c.phoneNumber.toList else []) ++ phonesOf t

/-- The consolidated view with the primary values first, first-occurrence
case-sensitive deduplication, and the secondaries taken in the order the
store scan returns them.  This is the amended ordering of claim C4: the
consolidator performs no sorting of its own, so the only order it can
deliver for the secondary values and ids is the scan-return order, and the
underlying Scan gives no ordering guarantee. -/
def scanOrderView (pc : Contact) (secs : List Contact) : ConsolidatedContact :=
  { primaryContactId := pc.id
    emails := dedupFirst ((if truthy pc.email then pc.email.toList else []) ++ emailsOf secs)
    phoneNumbers := dedupFirst
      ((if truthy pc.phoneNumber then pc.phoneNumber.toList else []) ++ phonesOf secs)
    secondaryContactIds := secs.map Contact.id }

theorem dedupInto_append (acc : List String) (l1 l2 : List String) :
    dedupInto acc (l1 ++ l2) = dedupInto (dedupInto acc l1) l2 := by
  unfold dedupInto
  rw [List.foldl_append]

theorem collectEmail_eq (acc : List String) (c : Contact) :
    collectEmail acc c = dedupInto acc (if truthy c.email then c.email.toList else []) := by
  cases he : c.email with
  | none => simp [collectEmail, truthy, he, dedupInto]
  | some e =>
      by_cases hv : (e == "") = true
      · simp [collectEmail, truthy, he, hv, dedupInto]
      · have hv2 : (e == "") = false := Bool.eq_false_iff.mpr hv
        by_cases hc : acc.contains e
        · simp [collectEmail, truthy, he, hv2, hc, dedupInto]
        · simp [collectEmail, truthy, he, hv2, hc, dedupInto]

theorem collectPhone_eq (acc : List String) (c : Contact) :
    collectPhone acc c
      = dedupInto acc (if truthy c.phoneNumber then c.phoneNumber.toList else []) := by
  cases he : c.phoneNumber with
  | none => simp [collectPhone, truthy, he, dedupInto]
  | some e =>
      by_cases hv : (e == "") = true
      · simp [collectPhone, truthy, he, hv, dedupInto]
      · have hv2 : (e == "") = false := Bool.eq_false_iff.mpr hv
        by_cases hc : acc.contains e
        · simp [collectPhone, truthy, he, hv2, hc, dedupInto]
        · simp [collectPhone, truthy, he, hv2, hc, dedupInto]

theorem foldl_collectEmail_eq (secs : List Contact) :
    ∀ acc : List String, secs.foldl collectEmail acc = dedupInto acc (emailsOf secs) := by
  induction secs with
  | nil => intro acc; rfl
  | cons c t ih =>
      intro acc
      rw [List.foldl_cons, ih, collectEmail_eq]
      rw [show emailsOf (c :: t)
        = (if truthy c.email then c.email.toList else []) ++ emailsOf t from rfl]
      rw [dedupInto_append]

theorem foldl_collectPhone_eq (secs : List Contact) :
    ∀ acc : List String, secs.foldl collectPhone acc = dedupInto acc (phonesOf secs) := by
  induction secs with
  | nil => intro acc; rfl
  | cons c t ih =>
      intro acc
      rw [List.foldl_cons, ih, collectPhone_eq]
      rw [show phonesOf (c :: t)
        = (if truthy c.phoneNumber then c.phoneNumber.toList else []) ++ phonesOf t from rfl]
      rw [dedupInto_append]

theorem dedupInto_nil_small (l : List String) (h : l = [] ∨ ∃ x, l = [x]) :
    dedupInto [] l = l := by
  rcases h with rfl | ⟨x, rfl⟩
  · rfl
  · simp [dedupInto]

theorem guard_toList_small (o : Option String) :
    (if truthy o then o.toList else []) = [] ∨
      ∃ x, (if truthy o then o.toList else []) = [x] := by
  cases o with
  | none => simp [truthy]
  | some v =>
      by_cases hv : (v == "") = true
      · simp [truthy, hv]
      · exact Or.inr ⟨v, by simp [truthy, Bool.eq_false_iff.mpr hv]⟩


/-- A chain whose scan order disagrees with creation order: the secondary
created later (id 2, createdAt 2) is returned by the scan before the one
created earlier (id 1, createdAt 1).  DynamoDB Scan returns items in
key-hash order of their uuid keys, unrelated to creation order, so this
arrangement is an ordinary state of the real store. -/
def cexStore4 : Store :=
  ⟨[⟨0, some "a", some "1", none, .primary, 0, 0⟩,
    ⟨2, some "c", some "3", some 0, .secondary, 2, 2⟩,
    ⟨1, some "b", some "2", some 0, .secondary, 1, 1⟩], 3, 3, [], 0, 0, 0⟩

/-- Claim C4 counterexample: the consolidator emits the secondaries in scan
order, not in ascending createdAt order.  On `cexStore4` the emails come
back a, c, b and the secondary ids come back 2, 1, although record 2 has
createdAt 2 and record 1 has createdAt 1: the value of the later-created
secondary precedes the value of the earlier-created one. -/
theorem consolidator_order_not_createdAt :
    ((buildConsolidatedResponse 0 cexStore4).1).data.map ConsolidatedContact.emails
      = some ["a", "c", "b"] ∧
    ((buildConsolidatedResponse 0 cexStore4).1).data.map
        ConsolidatedContact.secondaryContactIds = some [2, 1] ∧
    (lookup cexStore4 2).map Contact.createdAt = some 2 ∧
    (lookup cexStore4 1).map Contact.createdAt = some 1 := by
  decide

/-- Claim C4 (amended): for every chain and every store state, the
consolidated response lists the primary email (when present) first in
emails and the primary phone (when present) first in phoneNumbers, followed
by each secondary value in the order the scan returns the secondaries, with
duplicates removed by first occurrence under case-sensitive comparison, and
secondaryContactIds in the same scan-return order.  No sorting happens, so
ascending createdAt order is not guaranteed. -/
theorem buildConsolidatedResponse_scan_order (pid : Nat) (s : Store) (pc : Contact)
    (hS : s.sched = [])
    (hL : lookup s pid = some pc)
    (hP : pc.linkPrecedence = LinkPrecedence.primary) :
    (buildConsolidatedResponse pid s).1
      = { success := true,
          data := some (scanOrderView pc
            ((s.table.filter (fun c => c.linkedId == some pid)).filter
              (fun c => c.linkPrecedence == LinkPrecedence.secondary))),
          error := none } := by
  have hglc := getLinkedContacts_sched_nil hS hL
  have hfind : (pc :: s.table.filter (fun c => c.linkedId == some pid)).find?
      (fun c => c.linkPrecedence == LinkPrecedence.primary) = some pc :=
    List.find?_cons_of_pos _ (by simp [hP])
  have hsecfilter : (pc :: s.table.filter (fun c => c.linkedId == some pid)).filter
      (fun c => c.linkPrecedence == LinkPrecedence.secondary)
      = (s.table.filter (fun c => c.linkedId == some pid)).filter
          (fun c => c.linkPrecedence == LinkPrecedence.secondary) :=
    List.filter_cons_of_neg (by simp [hP])
  unfold buildConsolidatedResponse
  simp only [hglc, hfind, hsecfilter]
  unfold scanOrderView
  rw [foldl_collectEmail_eq, foldl_collectPhone_eq]
  unfold dedupFirst
  rw [dedupInto_append, dedupInto_append,
    dedupInto_nil_small _ (guard_toList_small pc.email),
    dedupInto_nil_small _ (guard_toList_small pc.phoneNumber)]

def wPc : Contact := ⟨0, some "a", some "1", none, .primary, 0, 0⟩

def wSa : Contact := ⟨1, some "b", some "1", some 0, .secondary, 1, 1⟩

def wSb : Contact := ⟨2, some "a", some "2", some 0, .secondary, 2, 2⟩

def wStore4 : Store := ⟨[wPc, wSa, wSb], 3, 3, [], 0, 0, 0⟩

/-- Claim C4 witness: a chain with two secondaries where the second
secondary repeats the primary email and the first repeats the primary
phone; the amended scan-order theorem applied at this store. -/
theorem buildConsolidatedResponse_scan_order_witness :
    (buildConsolidatedResponse 0 wStore4).1
      = { success := true,
          data := some (scanOrderView wPc [wSa, wSb]),
          error := none } :=
  buildConsolidatedResponse_scan_order 0 wStore4 wPc rfl (by decide) rfl

end BiteSpeed
